import Mathlib

set_option maxHeartbeats 1600000

/-!
Shallow embedding of the game server core (src/server.js).

The in-memory registries (`this.games`, `this.players`), the per-game
timer collections and the `setTimeout`/`clearTimeout` pool are modelled
explicitly; every Game State Machine operation of the `GameServer` class
is translated as a pure function on a `ServerState`, returning the new
state, the boolean the source returns, and the list of broadcast events
it emits (timestamp payload fields are omitted from events).  Timer
firing is an action of the small-step semantics `step`, so temporal
claims are statements about `Reach`.
-/

/-- Lookup in a JS `Map`, modelled as an association list. -/
def mget {α : Type} : List (String × α) → String → Option α
  | [], _ => none
  | kv :: t, k => if kv.1 = k then some kv.2 else mget t k

/-- `Map.delete`. -/
def mdel {α : Type} : List (String × α) → String → List (String × α)
  | [], _ => []
  | kv :: t, k => if kv.1 = k then mdel t k else kv :: mdel t k

/-- `Map.set` (remove the key, then append; lookup-equivalent to JS `Map.set`). -/
def mset {α : Type} (m : List (String × α)) (k : String) (v : α) : List (String × α) :=
  mdel m k ++ [(k, v)]

theorem mget_append_of_none {α : Type} {a : List (String × α)} {k : String}
    (h : mget a k = none) (b : List (String × α)) : mget (a ++ b) k = mget b k := by
  induction a with
  | nil => simp
  | cons kv t ih =>
    simp only [mget] at h ⊢
    split at h
    · exact absurd h (by simp)
    · rename_i hne
      simpa [mget, hne] using ih h

theorem mget_append_of_some {α : Type} {a : List (String × α)} {k : String} {v : α}
    (h : mget a k = some v) (b : List (String × α)) : mget (a ++ b) k = some v := by
  induction a with
  | nil => simp [mget] at h
  | cons kv t ih =>
    simp only [mget] at h ⊢
    split at h
    · simp [mget, *]
    · rename_i hne
      simpa [mget, hne] using ih h

theorem mget_mdel_self {α : Type} (m : List (String × α)) (k : String) :
    mget (mdel m k) k = none := by
  induction m with
  | nil => rfl
  | cons kv t ih =>
    simp only [mdel]
    split
    · exact ih
    · rename_i hne
      simp [mget, hne, ih]

theorem mget_mdel_ne {α : Type} (m : List (String × α)) {k k' : String} (h : k' ≠ k) :
    mget (mdel m k) k' = mget m k' := by
  induction m with
  | nil => rfl
  | cons kv t ih =>
    simp only [mdel, mget]
    split
    · rename_i heq
      have : ¬ kv.1 = k' := fun hc => h (hc ▸ heq ▸ rfl)
      simp [mget, this, ih]
    · simp [mget, ih]

theorem mget_mset_self {α : Type} (m : List (String × α)) (k : String) (v : α) :
    mget (mset m k v) k = some v := by
  unfold mset
  rw [mget_append_of_none (mget_mdel_self m k)]
  simp [mget]

theorem mget_mset_ne {α : Type} (m : List (String × α)) {k k' : String} (v : α) (h : k' ≠ k) :
    mget (mset m k v) k' = mget m k' := by
  unfold mset
  cases hm : mget (mdel m k) k' with
  | none =>
    rw [mget_append_of_none hm]
    rw [mget_mdel_ne m h] at hm
    simp [mget, Ne.symm h, hm]
  | some w =>
    rw [mget_append_of_some hm]
    rw [mget_mdel_ne m h] at hm
    exact hm.symm

theorem mem_of_mget {α : Type} {m : List (String × α)} {k : String} {v : α}
    (h : mget m k = some v) : (k, v) ∈ m := by
  induction m with
  | nil => simp [mget] at h
  | cons kv t ih =>
    simp only [mget] at h
    split at h
    · rename_i heq
      have : kv = (k, v) := by
        cases kv; cases h; cases heq; rfl
      simp [this]
    · exact List.mem_cons_of_mem _ (ih h)

theorem mem_mdel {α : Type} {m : List (String × α)} {k : String} {kv : String × α}
    (h : kv ∈ mdel m k) : kv ∈ m := by
  induction m with
  | nil => simp [mdel] at h
  | cons hd t ih =>
    simp only [mdel] at h
    split at h
    · exact List.mem_cons_of_mem _ (ih h)
    · rcases List.mem_cons.mp h with h1 | h2
      · simp [h1]
      · exact List.mem_cons_of_mem _ (ih h2)

theorem mem_mset {α : Type} {m : List (String × α)} {k : String} {v : α} {kv : String × α}
    (h : kv ∈ mset m k v) : kv ∈ m ∨ kv = (k, v) := by
  unfold mset at h
  rcases List.mem_append.mp h with h1 | h2
  · exact Or.inl (mem_mdel h1)
  · simp at h2
    exact Or.inr h2

/-- Game settings (the merged `settings` object of a game). -/
structure Settings where
  gameDuration : Nat
  eliminationRiskDuration : Nat
  chaseCountdown : Nat
  mercenaryMultiplier : Rat
  ghostChaseCountdown : Nat
  deriving DecidableEq

/-- Caller-supplied settings: each field optional, as for a JS object
argument whose keys may be absent. -/
structure PartialSettings where
  gameDuration : Option Nat := none
  eliminationRiskDuration : Option Nat := none
  chaseCountdown : Option Nat := none
  mercenaryMultiplier : Option Rat := none
  ghostChaseCountdown : Option Nat := none
  deriving DecidableEq

/-- The empty settings object `{}` (default argument of `getOrCreateGame`). -/
def noSettings : PartialSettings := {}

/-- JS `x || dflt` for an optional number: absent or zero falls back. -/
def orDefault (o : Option Nat) (dflt : Nat) : Nat :=
  match o with
  | some x => if x = 0 then dflt else x
  | none => dflt

/-- The settings object literal in `getOrCreateGame`: the three defaulted
duration fields and the two fixed fields are written first, and the
`...settings` spread comes last, so every caller-supplied field — the
fixed-looking `mercenaryMultiplier` and `ghostChaseCountdown` included —
overrides what precedes it. -/
def mergeSettings (ps : PartialSettings) : Settings :=
  let base : Settings :=
    { gameDuration := orDefault ps.gameDuration 600000
      eliminationRiskDuration := orDefault ps.eliminationRiskDuration 100000
      chaseCountdown := orDefault ps.chaseCountdown 5000
      mercenaryMultiplier := 3
      ghostChaseCountdown := 3000 }
  { gameDuration := ps.gameDuration.getD base.gameDuration
    eliminationRiskDuration := ps.eliminationRiskDuration.getD base.eliminationRiskDuration
    chaseCountdown := ps.chaseCountdown.getD base.chaseCountdown
    mercenaryMultiplier := ps.mercenaryMultiplier.getD base.mercenaryMultiplier
    ghostChaseCountdown := ps.ghostChaseCountdown.getD base.ghostChaseCountdown }

/-- An entry of `game.players`. -/
structure Player where
  playerId : String
  playerName : String
  role : String
  ability : String
  socketId : String
  status : String
  joinedAt : Nat
  eliminatedAt : Option Nat
  eliminationReason : Option String
  deriving DecidableEq

/-- An entry of the server-level `this.players` map (socketId → binding). -/
structure Binding where
  socketId : String
  playerId : String
  playerName : String
  role : String
  ability : String
  gameId : String
  joinedAt : Nat
  deriving DecidableEq

/-- The callback closure passed to `setTimeout`. -/
inductive TimerCb where
  | gameTimeout (gameId : String)
  | riskTimeout (gameId playerId : String)
  | chaseFire (gameId hunterId survivorId : String)
  | cleanup (gameId : String)
  deriving DecidableEq

/-- A scheduled, not-yet-fired, not-yet-cancelled `setTimeout`. -/
structure TimerEntry where
  id : Nat
  cb : TimerCb
  duration : Int
  deriving DecidableEq

/-- The ambient timer runtime: `nextId` is a fresh-handle counter, `armed`
the scheduled timers. -/
structure TimerPool where
  nextId : Nat
  armed : List TimerEntry
  deriving DecidableEq

/-- `clearTimeout` on a handle: drop it if scheduled, no-op otherwise. -/
def removeId : List TimerEntry → Nat → List TimerEntry
  | [], _ => []
  | e :: t, tid => if e.id = tid then removeId t tid else e :: removeId t tid

def TimerPool.clear (p : TimerPool) (tid : Nat) : TimerPool :=
  { p with armed := removeId p.armed tid }

/-- `setTimeout`: schedules the callback, returning the fresh handle. -/
def TimerPool.arm (p : TimerPool) (cb : TimerCb) (d : Int) : Nat × TimerPool :=
  (p.nextId, ⟨p.nextId + 1, p.armed ++ [⟨p.nextId, cb, d⟩]⟩)

def TimerPool.clearAll (p : TimerPool) (tids : List Nat) : TimerPool :=
  tids.foldl TimerPool.clear p

def findId : List TimerEntry → Nat → Option TimerEntry
  | [], _ => none
  | e :: t, tid => if e.id = tid then some e else findId t tid

/-- A game object. -/
structure Game where
  id : String
  players : List (String × Player)
  status : String
  settings : Settings
  gameTimer : Option Nat
  eliminationRiskTimers : List (String × Nat)
  chaseTimers : List (String × Nat)
  startTime : Option Nat
  endTime : Option Nat
  endedAt : Option Nat
  endReason : Option String
  createdAt : Nat
  deriving DecidableEq

/-- The whole server: `games` and `players` (bindings) registries plus the
timer runtime. -/
structure ServerState where
  games : List (String × Game)
  bindings : List (String × Binding)
  pool : TimerPool
  deriving DecidableEq

def initState : ServerState := ⟨[], [], ⟨0, []⟩⟩

/-- Broadcast events (`io.to(gameId).emit(...)`); timestamp payload fields
are omitted. -/
inductive Ev where
  | gameTimerStarted (gameId : String) (duration : Nat)
  | eliminationRiskStarted (gameId playerId : String) (duration : Int) (isMercenary : Bool)
  | eliminationRiskStopped (gameId playerId : String)
  | chaseCountdownStarted (gameId hunterId survivorId : String) (duration : Nat) (isGhost : Bool)
  | chaseCountdownStopped (gameId hunterId survivorId : String)
  | chaseTimedOut (gameId hunterId survivorId : String)
  | playerEliminated (gameId playerId reason : String)
  | gameEnded (gameId reason : String)
  | playerDisconnected (gameId playerId : String)
  deriving DecidableEq

/-- Result of a boolean-returning `GameServer` method. -/
structure Res where
  state : ServerState
  ret : Bool
  evs : List Ev
  deriving DecidableEq

/-- `getOrCreateGame(gameId, settings = {})`. -/
def getOrCreateGame (s : ServerState) (gameId : String) (ps : PartialSettings)
    (now : Nat) : ServerState :=
  match mget s.games gameId with
  | some _ => s
  | none =>
      let game : Game :=
        { id := gameId
          players := []
          status := "waiting"
          settings := mergeSettings ps
          gameTimer := none
          eliminationRiskTimers := []
          chaseTimers := []
          startTime := none
          endTime := none
          endedAt := none
          endReason := none
          createdAt := now }
      { s with games := mset s.games gameId game }

/-- `joinGame(socketId, gameId, playerData)`. -/
def joinGame (s : ServerState) (socketId gameId playerId playerName role ability : String)
    (now : Nat) : Res :=
  let s1 := getOrCreateGame s gameId noSettings now
  let b : Binding := ⟨socketId, playerId, playerName, role, ability, gameId, now⟩
  let s2 := { s1 with bindings := mset s1.bindings socketId b }
  match mget s2.games gameId with
  | none => ⟨s2, false, []⟩
  | some game =>
      let p : Player :=
        ⟨playerId, playerName, role, ability, socketId, "alive", now, none, none⟩
      let game' := { game with players := mset game.players playerId p }
      ⟨{ s2 with games := mset s2.games gameId game' }, true, []⟩

/-- `startGameTimer(gameId, customDuration = null)`. -/
def startGameTimer (s : ServerState) (gameId : String) (customDuration : Option Nat)
    (now : Nat) : Res :=
  match mget s.games gameId with
  | none => ⟨s, false, []⟩
  | some game =>
      let pool1 :=
        match game.gameTimer with
        | some t => s.pool.clear t
        | none => s.pool
      let duration := orDefault customDuration game.settings.gameDuration
      let (tid, pool2) := pool1.arm (.gameTimeout gameId) (duration : Int)
      let game' := { game with
        startTime := some now
        endTime := some (now + duration)
        status := "playing"
        gameTimer := some tid }
      ⟨{ s with games := mset s.games gameId game', pool := pool2 },
        true, [.gameTimerStarted gameId duration]⟩

/-- `startEliminationRiskTimer(gameId, playerId, customDuration = null)`. -/
def startEliminationRiskTimer (s : ServerState) (gameId playerId : String)
    (customDuration : Option Nat) : Res :=
  match mget s.games gameId with
  | none => ⟨s, false, []⟩
  | some game =>
      match mget game.players playerId with
      | none => ⟨s, false, []⟩
      | some player =>
          let base := orDefault customDuration game.settings.eliminationRiskDuration
          let duration : Int :=
            if player.ability = "MERCENARY" then
              ⌊(base : Rat) * game.settings.mercenaryMultiplier⌋
            else (base : Int)
          let pool1 :=
            match mget game.eliminationRiskTimers playerId with
            | some t => s.pool.clear t
            | none => s.pool
          let (tid, pool2) := pool1.arm (.riskTimeout gameId playerId) duration
          let game' := { game with
            eliminationRiskTimers := mset game.eliminationRiskTimers playerId tid
            players := mset game.players playerId { player with status := "elimination_risk" } }
          ⟨{ s with games := mset s.games gameId game', pool := pool2 },
            true, [.eliminationRiskStarted gameId playerId duration
                    (player.ability = "MERCENARY")]⟩

/-- `stopEliminationRiskTimer(gameId, playerId)`. -/
def stopEliminationRiskTimer (s : ServerState) (gameId playerId : String) : Res :=
  match mget s.games gameId with
  | none => ⟨s, false, []⟩
  | some game =>
      match mget game.eliminationRiskTimers playerId with
      | none => ⟨s, false, []⟩
      | some t =>
          let pool1 := s.pool.clear t
          let players' :=
            match mget game.players playerId with
            | some player => mset game.players playerId { player with status := "alive" }
            | none => game.players
          let game' := { game with
            eliminationRiskTimers := mdel game.eliminationRiskTimers playerId
            players := players' }
          ⟨{ s with games := mset s.games gameId game', pool := pool1 },
            true, [.eliminationRiskStopped gameId playerId]⟩

/-- The chase-timer key: the template literal `hunterId + "_" + survivorId`. -/
def chaseKey (hunterId survivorId : String) : String :=
  hunterId ++ "_" ++ survivorId

/-- `startChaseCountdown(gameId, hunterId, survivorId, isGhostAbility = false)`. -/
def startChaseCountdown (s : ServerState) (gameId hunterId survivorId : String)
    (isGhostAbility : Bool) : Res :=
  match mget s.games gameId with
  | none => ⟨s, false, []⟩
  | some game =>
      let duration :=
        if isGhostAbility then game.settings.ghostChaseCountdown
        else game.settings.chaseCountdown
      let timerKey := chaseKey hunterId survivorId
      let pool1 :=
        match mget game.chaseTimers timerKey with
        | some t => s.pool.clear t
        | none => s.pool
      let (tid, pool2) := pool1.arm (.chaseFire gameId hunterId survivorId) (duration : Int)
      let game' := { game with chaseTimers := mset game.chaseTimers timerKey tid }
      ⟨{ s with games := mset s.games gameId game', pool := pool2 },
        true, [.chaseCountdownStarted gameId hunterId survivorId duration isGhostAbility]⟩

/-- `stopChaseCountdown(gameId, hunterId, survivorId)`. -/
def stopChaseCountdown (s : ServerState) (gameId hunterId survivorId : String) : Res :=
  match mget s.games gameId with
  | none => ⟨s, false, []⟩
  | some game =>
      let timerKey := chaseKey hunterId survivorId
      match mget game.chaseTimers timerKey with
      | none => ⟨s, false, []⟩
      | some t =>
          let game' := { game with chaseTimers := mdel game.chaseTimers timerKey }
          ⟨{ s with games := mset s.games gameId game', pool := s.pool.clear t },
            true, [.chaseCountdownStopped gameId hunterId survivorId]⟩

/-- `chaseTimeout(gameId, hunterId, survivorId)` (the chase timer callback). -/
def chaseTimeout (s : ServerState) (gameId hunterId survivorId : String) :
    ServerState × List Ev :=
  match mget s.games gameId with
  | none => (s, [])
  | some game =>
      let game' :=
        { game with chaseTimers := mdel game.chaseTimers (chaseKey hunterId survivorId) }
      ({ s with games := mset s.games gameId game' },
        [.chaseTimedOut gameId hunterId survivorId])

/-- The `aliveSurvivors.length` computation in `checkGameEndConditions`:
players with `role === 'survivor'` and `status !== 'eliminated'`. -/
def countAliveSurvivors (players : List (String × Player)) : Nat :=
  (players.filter
    (fun kv => decide (kv.2.role = "survivor" ∧ kv.2.status ≠ "eliminated"))).length

/-- `endGame(gameId, reason)`. -/
def endGame (s : ServerState) (gameId reason : String) (now : Nat) : Res :=
  match mget s.games gameId with
  | none => ⟨s, false, []⟩
  | some game =>
      let pool1 :=
        match game.gameTimer with
        | some t => s.pool.clear t
        | none => s.pool
      let pool2 := pool1.clearAll (game.eliminationRiskTimers.map (·.2))
      let pool3 := pool2.clearAll (game.chaseTimers.map (·.2))
      let (_, pool4) := pool3.arm (.cleanup gameId) 300000
      let game' := { game with
        status := "ended"
        endedAt := some now
        endReason := some reason
        gameTimer := none
        eliminationRiskTimers := []
        chaseTimers := [] }
      ⟨{ s with games := mset s.games gameId game', pool := pool4 },
        true, [.gameEnded gameId reason]⟩

/-- `checkGameEndConditions(gameId)`. -/
def checkGameEndConditions (s : ServerState) (gameId : String) (now : Nat) :
    ServerState × List Ev :=
  match mget s.games gameId with
  | none => (s, [])
  | some game =>
      if game.status = "playing" then
        if countAliveSurvivors game.players = 0 then
          let r := endGame s gameId "all_survivors_eliminated" now
          (r.state, r.evs)
        else (s, [])
      else (s, [])

/-- `eliminatePlayer(gameId, playerId, reason = 'unknown')`. -/
def eliminatePlayer (s : ServerState) (gameId playerId reason : String) (now : Nat) : Res :=
  match mget s.games gameId with
  | none => ⟨s, false, []⟩
  | some game =>
      match mget game.players playerId with
      | none => ⟨s, false, []⟩
      | some player =>
          let (pool1, riskTimers1) :=
            match mget game.eliminationRiskTimers playerId with
            | some t => (s.pool.clear t, mdel game.eliminationRiskTimers playerId)
            | none => (s.pool, game.eliminationRiskTimers)
          let player' := { player with
            status := "eliminated"
            eliminatedAt := some now
            eliminationReason := some reason }
          let game1 := { game with
            eliminationRiskTimers := riskTimers1
            players := mset game.players playerId player' }
          let s1 := { s with games := mset s.games gameId game1, pool := pool1 }
          let (s2, evs2) := checkGameEndConditions s1 gameId now
          ⟨s2, true, .playerEliminated gameId playerId reason :: evs2⟩

/-- The binding-removal loop in `cleanupGame`. -/
def dropBindingsFor : List (String × Binding) → String → List (String × Binding)
  | [], _ => []
  | kv :: t, gameId =>
      if kv.2.gameId = gameId then dropBindingsFor t gameId
      else kv :: dropBindingsFor t gameId

/-- `cleanupGame(gameId)` (the deferred destruction callback). -/
def cleanupGame (s : ServerState) (gameId : String) : ServerState :=
  match mget s.games gameId with
  | none => s
  | some _ =>
      { s with
        bindings := dropBindingsFor s.bindings gameId
        games := mdel s.games gameId }

/-- `disconnectPlayer(socketId)`. -/
def disconnectPlayer (s : ServerState) (socketId : String) : ServerState × List Ev :=
  match mget s.bindings socketId with
  | none => (s, [])
  | some b =>
      match mget s.games b.gameId with
      | none => ({ s with bindings := mdel s.bindings socketId }, [])
      | some game =>
          let (pool1, riskTimers1) :=
            match mget game.eliminationRiskTimers b.playerId with
            | some t => (s.pool.clear t, mdel game.eliminationRiskTimers b.playerId)
            | none => (s.pool, game.eliminationRiskTimers)
          let game' := { game with
            players := mdel game.players b.playerId
            eliminationRiskTimers := riskTimers1 }
          ({ s with
              games := mset s.games b.gameId game'
              bindings := mdel s.bindings socketId
              pool := pool1 },
            [.playerDisconnected b.gameId b.playerId])

/-- A scheduled timer firing: the runtime unschedules the handle and runs
its callback, which re-enters the state machine. -/
def fireTimer (s : ServerState) (tid : Nat) (now : Nat) : ServerState × List Ev :=
  match findId s.pool.armed tid with
  | none => (s, [])
  | some e =>
      let s1 := { s with pool := s.pool.clear tid }
      match e.cb with
      | .gameTimeout gameId =>
          let r := endGame s1 gameId "timeout" now
          (r.state, r.evs)
      | .riskTimeout gameId playerId =>
          let r := eliminatePlayer s1 gameId playerId "elimination_risk_timeout" now
          (r.state, r.evs)
      | .chaseFire gameId hunterId survivorId =>
          chaseTimeout s1 gameId hunterId survivorId
      | .cleanup gameId => (cleanupGame s1 gameId, [])

/-- External actions plus timer firings: everything that can mutate the
server state. -/
inductive Act where
  | join (socketId gameId playerId playerName role ability : String) (now : Nat)
  | startGame (gameId : String) (d : Option Nat) (now : Nat)
  | startRisk (gameId playerId : String) (d : Option Nat)
  | stopRisk (gameId playerId : String)
  | startChase (gameId hunterId survivorId : String) (ghost : Bool)
  | stopChase (gameId hunterId survivorId : String)
  | eliminate (gameId playerId reason : String) (now : Nat)
  | endGameAct (gameId reason : String) (now : Nat)
  | disconnect (socketId : String)
  | fire (tid : Nat) (now : Nat)

def step (s : ServerState) : Act → ServerState
  | .join sock gid pid pname role ability now =>
      (joinGame s sock gid pid pname role ability now).state
  | .startGame gid d now => (startGameTimer s gid d now).state
  | .startRisk gid pid d => (startEliminationRiskTimer s gid pid d).state
  | .stopRisk gid pid => (stopEliminationRiskTimer s gid pid).state
  | .startChase gid h sv ghost => (startChaseCountdown s gid h sv ghost).state
  | .stopChase gid h sv => (stopChaseCountdown s gid h sv).state
  | .eliminate gid pid reason now => (eliminatePlayer s gid pid reason now).state
  | .endGameAct gid reason now => (endGame s gid reason now).state
  | .disconnect sock => (disconnectPlayer s sock).1
  | .fire tid now => (fireTimer s tid now).1

def StepR (a b : ServerState) : Prop := ∃ act, step a act = b

/-- Reachability along the semantics. -/
def Reach : ServerState → ServerState → Prop := Relation.ReflTransGen StepR

/-- The game status visible for a gameId, if the game exists. -/
def statusOf (s : ServerState) (gameId : String) : Option String :=
  (mget s.games gameId).map (·.status)

/-- Every timer handle recorded in a game's timer collections. -/
def registeredIds (g : Game) : List Nat :=
  g.gameTimer.toList ++ g.eliminationRiskTimers.map (·.2) ++ g.chaseTimers.map (·.2)

/-- Pool evolution: the fresh counter never decreases, and any armed entry
is either an old one or carries a fresh handle. -/
def PoolLe (p q : TimerPool) : Prop :=
  p.nextId ≤ q.nextId ∧ ∀ e ∈ q.armed, e ∈ p.armed ∨ p.nextId ≤ e.id

theorem poolLe_refl (p : TimerPool) : PoolLe p p :=
  ⟨le_refl _, fun _ he => Or.inl he⟩

theorem poolLe_trans {p q r : TimerPool} (h1 : PoolLe p q) (h2 : PoolLe q r) :
    PoolLe p r := by
  refine ⟨le_trans h1.1 h2.1, fun e he => ?_⟩
  rcases h2.2 e he with h | h
  · exact h1.2 e h
  · exact Or.inr (le_trans h1.1 h)

theorem mem_removeId {l : List TimerEntry} {tid : Nat} {e : TimerEntry}
    (h : e ∈ removeId l tid) : e ∈ l ∧ e.id ≠ tid := by
  induction l with
  | nil => simp [removeId] at h
  | cons hd t ih =>
    simp only [removeId] at h
    split at h
    · exact ⟨List.mem_cons_of_mem _ (ih h).1, (ih h).2⟩
    · rename_i hne
      rcases List.mem_cons.mp h with h1 | h2
      · exact ⟨by simp [h1], h1 ▸ hne⟩
      · exact ⟨List.mem_cons_of_mem _ (ih h2).1, (ih h2).2⟩

theorem poolLe_clear (p : TimerPool) (tid : Nat) : PoolLe p (p.clear tid) :=
  ⟨le_refl _, fun _ he => Or.inl (mem_removeId he).1⟩

theorem poolLe_clearAll (p : TimerPool) (tids : List Nat) : PoolLe p (p.clearAll tids) := by
  induction tids generalizing p with
  | nil => exact poolLe_refl p
  | cons t ts ih =>
    exact poolLe_trans (poolLe_clear p t) (ih (p.clear t))

theorem poolLe_arm (p : TimerPool) (cb : TimerCb) (d : Int) :
    PoolLe p (p.arm cb d).2 := by
  refine ⟨Nat.le_succ _, fun e he => ?_⟩
  rcases List.mem_append.mp he with h | h
  · exact Or.inl h
  · simp at h
    subst h
    exact Or.inr (le_refl _)

theorem poolLe_joinGame (s : ServerState) (sock gid pid pn rl ab : String) (now : Nat) :
    PoolLe s.pool (joinGame s sock gid pid pn rl ab now).state.pool := by
  unfold joinGame getOrCreateGame
  cases hg : mget s.games gid <;> simp only [hg] <;>
    first
    | exact poolLe_refl _
    | (split <;> exact poolLe_refl _)

theorem poolLe_startGameTimer (s : ServerState) (gid : String) (d : Option Nat) (now : Nat) :
    PoolLe s.pool (startGameTimer s gid d now).state.pool := by
  unfold startGameTimer
  cases hg : mget s.games gid with
  | none => exact poolLe_refl _
  | some game =>
    simp only
    cases hgt : game.gameTimer <;> simp only [hgt]
    · exact poolLe_arm _ _ _
    · exact poolLe_trans (poolLe_clear _ _) (poolLe_arm _ _ _)

theorem poolLe_startRisk (s : ServerState) (gid pid : String) (d : Option Nat) :
    PoolLe s.pool (startEliminationRiskTimer s gid pid d).state.pool := by
  unfold startEliminationRiskTimer
  cases hg : mget s.games gid with
  | none => exact poolLe_refl _
  | some game =>
    simp only
    cases hp : mget game.players pid with
    | none => exact poolLe_refl _
    | some player =>
      simp only
      cases hrt : mget game.eliminationRiskTimers pid <;> simp only [hrt]
      · exact poolLe_arm _ _ _
      · exact poolLe_trans (poolLe_clear _ _) (poolLe_arm _ _ _)

theorem poolLe_stopRisk (s : ServerState) (gid pid : String) :
    PoolLe s.pool (stopEliminationRiskTimer s gid pid).state.pool := by
  unfold stopEliminationRiskTimer
  cases hg : mget s.games gid with
  | none => exact poolLe_refl _
  | some game =>
    simp only
    cases hrt : mget game.eliminationRiskTimers pid <;> simp only [hrt]
    · exact poolLe_refl _
    · exact poolLe_clear _ _

theorem poolLe_startChase (s : ServerState) (gid h sv : String) (ghost : Bool) :
    PoolLe s.pool (startChaseCountdown s gid h sv ghost).state.pool := by
  unfold startChaseCountdown
  cases hg : mget s.games gid with
  | none => exact poolLe_refl _
  | some game =>
    simp only
    cases hct : mget game.chaseTimers (chaseKey h sv) <;> simp only [hct]
    · exact poolLe_arm _ _ _
    · exact poolLe_trans (poolLe_clear _ _) (poolLe_arm _ _ _)

theorem poolLe_stopChase (s : ServerState) (gid h sv : String) :
    PoolLe s.pool (stopChaseCountdown s gid h sv).state.pool := by
  unfold stopChaseCountdown
  cases hg : mget s.games gid with
  | none => exact poolLe_refl _
  | some game =>
    simp only
    cases hct : mget game.chaseTimers (chaseKey h sv) <;> simp only [hct]
    · exact poolLe_refl _
    · exact poolLe_clear _ _

theorem poolLe_endGame (s : ServerState) (gid reason : String) (now : Nat) :
    PoolLe s.pool (endGame s gid reason now).state.pool := by
  unfold endGame
  cases hg : mget s.games gid with
  | none => exact poolLe_refl _
  | some game =>
    simp only
    cases hgt : game.gameTimer <;> simp only [hgt]
    · exact poolLe_trans (poolLe_clearAll _ _)
        (poolLe_trans (poolLe_clearAll _ _) (poolLe_arm _ _ _))
    · exact poolLe_trans (poolLe_clear _ _) (poolLe_trans (poolLe_clearAll _ _)
        (poolLe_trans (poolLe_clearAll _ _) (poolLe_arm _ _ _)))

theorem poolLe_checkEnd (s : ServerState) (gid : String) (now : Nat) :
    PoolLe s.pool (checkGameEndConditions s gid now).1.pool := by
  unfold checkGameEndConditions
  cases hg : mget s.games gid with
  | none => exact poolLe_refl _
  | some game =>
    simp only
    split
    · split
      · exact poolLe_endGame _ _ _ _
      · exact poolLe_refl _
    · exact poolLe_refl _

theorem poolLe_eliminate (s : ServerState) (gid pid reason : String) (now : Nat) :
    PoolLe s.pool (eliminatePlayer s gid pid reason now).state.pool := by
  unfold eliminatePlayer
  cases hg : mget s.games gid with
  | none => exact poolLe_refl _
  | some game =>
    simp only
    cases hp : mget game.players pid with
    | none => exact poolLe_refl _
    | some player =>
      simp only
      cases hrt : mget game.eliminationRiskTimers pid <;> simp only [hrt] <;>
          refine poolLe_trans ?_ (poolLe_checkEnd _ _ _)
      · exact poolLe_refl _
      · exact poolLe_clear _ _

theorem pool_chaseTimeout (s : ServerState) (gid h sv : String) :
    (chaseTimeout s gid h sv).1.pool = s.pool := by
  unfold chaseTimeout
  cases hg : mget s.games gid <;> simp only [hg]

theorem pool_cleanupGame (s : ServerState) (gid : String) :
    (cleanupGame s gid).pool = s.pool := by
  unfold cleanupGame
  cases hg : mget s.games gid <;> simp only [hg]

theorem poolLe_disconnect (s : ServerState) (sock : String) :
    PoolLe s.pool (disconnectPlayer s sock).1.pool := by
  unfold disconnectPlayer
  cases hb : mget s.bindings sock with
  | none => exact poolLe_refl _
  | some b =>
    simp only
    cases hg : mget s.games b.gameId with
    | none => exact poolLe_refl _
    | some game =>
      simp only
      cases hrt : mget game.eliminationRiskTimers b.playerId <;> simp only [hrt]
      · exact poolLe_refl _
      · exact poolLe_clear _ _

theorem poolLe_of_eq {p q : TimerPool} (h : q = p) : PoolLe p q :=
  h ▸ poolLe_refl q

theorem poolLe_fire (s : ServerState) (tid : Nat) (now : Nat) :
    PoolLe s.pool (fireTimer s tid now).1.pool := by
  unfold fireTimer
  cases hf : findId s.pool.armed tid with
  | none => exact poolLe_refl _
  | some e =>
    simp only
    have hbase : PoolLe s.pool ({ s with pool := s.pool.clear tid } : ServerState).pool :=
      poolLe_clear _ _
    cases e.cb with
    | gameTimeout gid =>
      refine poolLe_trans ?_ (poolLe_endGame _ _ _ _)
      exact poolLe_clear _ _
    | riskTimeout gid pid =>
      refine poolLe_trans ?_ (poolLe_eliminate _ _ _ _ _)
      exact poolLe_clear _ _
    | chaseFire gid h sv =>
      exact poolLe_trans hbase (poolLe_of_eq (pool_chaseTimeout _ _ _ _))
    | cleanup gid =>
      exact poolLe_trans hbase (poolLe_of_eq (pool_cleanupGame _ _))

theorem poolLe_step (s : ServerState) (a : Act) : PoolLe s.pool (step s a).pool := by
  cases a with
  | join sock gid pid pn rl ab now => exact poolLe_joinGame s sock gid pid pn rl ab now
  | startGame gid d now => exact poolLe_startGameTimer s gid d now
  | startRisk gid pid d => exact poolLe_startRisk s gid pid d
  | stopRisk gid pid => exact poolLe_stopRisk s gid pid
  | startChase gid h sv ghost => exact poolLe_startChase s gid h sv ghost
  | stopChase gid h sv => exact poolLe_stopChase s gid h sv
  | eliminate gid pid reason now => exact poolLe_eliminate s gid pid reason now
  | endGameAct gid reason now => exact poolLe_endGame s gid reason now
  | disconnect sock => exact poolLe_disconnect s sock
  | fire tid now => exact poolLe_fire s tid now

/-- A handle that is below the fresh counter and not armed: it can never
be (re-)armed, hence its callback can never run. -/
def DeadId (s : ServerState) (tid : Nat) : Prop :=
  tid < s.pool.nextId ∧ ∀ e ∈ s.pool.armed, e.id ≠ tid

theorem deadId_of_poolLe {p q : TimerPool} {tid : Nat} (h : PoolLe p q)
    (h1 : tid < p.nextId) (h2 : ∀ e ∈ p.armed, e.id ≠ tid) :
    tid < q.nextId ∧ ∀ e ∈ q.armed, e.id ≠ tid := by
  refine ⟨lt_of_lt_of_le h1 h.1, fun e he => ?_⟩
  rcases h.2 e he with hm | hfresh
  · exact h2 e hm
  · omega

theorem deadId_step {s : ServerState} {tid : Nat} (h : DeadId s tid) (a : Act) :
    DeadId (step s a) tid :=
  deadId_of_poolLe (poolLe_step s a) h.1 h.2

theorem deadId_reach {s s' : ServerState} {tid : Nat} (h : Reach s s')
    (hd : DeadId s tid) : DeadId s' tid := by
  induction h with
  | refl => exact hd
  | tail _ hbc ih =>
    obtain ⟨a, rfl⟩ := hbc
    exact deadId_step ih a

theorem isSome_mget_mset {α : Type} (m : List (String × α)) (k' k : String) (v : α)
    (h : (mget m k').isSome) : (mget (mset m k v) k').isSome := by
  by_cases hk : k' = k
  · subst hk
    simp [mget_mset_self]
  · rwa [mget_mset_ne m v hk]

theorem mem_map_snd_mset {α : Type} {m : List (String × α)} {k : String} {v : α} {x : α}
    (h : x ∈ (mset m k v).map (·.2)) : x ∈ m.map (·.2) ∨ x = v := by
  rcases List.mem_map.mp h with ⟨kv, hkv, rfl⟩
  rcases mem_mset hkv with h1 | h1
  · exact Or.inl (List.mem_map.mpr ⟨kv, h1, rfl⟩)
  · subst h1
    exact Or.inr rfl

theorem mem_map_snd_mdel {α : Type} {m : List (String × α)} {k : String} {x : α}
    (h : x ∈ (mdel m k).map (·.2)) : x ∈ m.map (·.2) := by
  rcases List.mem_map.mp h with ⟨kv, hkv, rfl⟩
  exact List.mem_map.mpr ⟨kv, mem_mdel hkv, rfl⟩

theorem mem_dropBindingsFor {m : List (String × Binding)} {gid : String}
    {kv : String × Binding} (h : kv ∈ dropBindingsFor m gid) :
    kv ∈ m ∧ kv.2.gameId ≠ gid := by
  induction m with
  | nil => simp [dropBindingsFor] at h
  | cons hd t ih =>
    simp only [dropBindingsFor] at h
    split at h
    · exact ⟨List.mem_cons_of_mem _ (ih h).1, (ih h).2⟩
    · rename_i hne
      rcases List.mem_cons.mp h with h1 | h2
      · exact ⟨by simp [h1], h1 ▸ hne⟩
      · exact ⟨List.mem_cons_of_mem _ (ih h2).1, (ih h2).2⟩

/-- The global well-formedness invariant: armed and registered timer
handles are below the fresh counter, and every connection binding points
at an existing game. -/
def SInv (s : ServerState) : Prop :=
  (∀ e ∈ s.pool.armed, e.id < s.pool.nextId) ∧
  (∀ kv ∈ s.games, ∀ tid ∈ registeredIds kv.2, tid < s.pool.nextId) ∧
  (∀ kv ∈ s.bindings, (mget s.games kv.2.gameId).isSome)

theorem sInv_initState : SInv initState := by
  refine ⟨?_, ?_, ?_⟩ <;> intro kv hkv <;> simp [initState] at hkv

theorem mem_clearAll_armed {p : TimerPool} {tids : List Nat} {e : TimerEntry}
    (h : e ∈ (p.clearAll tids).armed) : e ∈ p.armed := by
  induction tids generalizing p with
  | nil => exact h
  | cons t ts ih =>
    have := ih (p := p.clear t) h
    exact (mem_removeId this).1

theorem nextId_clearAll (p : TimerPool) (tids : List Nat) :
    (p.clearAll tids).nextId = p.nextId := by
  induction tids generalizing p with
  | nil => rfl
  | cons t ts ih => exact ih (p := p.clear t)

theorem getOrCreate_isSome (s : ServerState) (gid : String) (ps : PartialSettings)
    (now : Nat) : (mget (getOrCreateGame s gid ps now).games gid).isSome := by
  unfold getOrCreateGame
  cases hg : mget s.games gid with
  | some g => simp [hg]
  | none => simp [mget_mset_self]

theorem sInv_getOrCreate (s : ServerState) (gid : String) (ps : PartialSettings) (now : Nat)
    (h : SInv s) : SInv (getOrCreateGame s gid ps now) := by
  unfold getOrCreateGame
  cases hg : mget s.games gid with
  | some g => exact h
  | none =>
    refine ⟨h.1, ?_, ?_⟩
    · intro kv hkv tid htid
      rcases mem_mset hkv with h1 | h1
      · exact h.2.1 kv h1 tid htid
      · subst h1
        simp [registeredIds] at htid
    · intro kv hkv
      exact isSome_mget_mset _ _ _ _ (h.2.2 kv hkv)

theorem sInv_joinGame (s : ServerState) (sock gid pid pn rl ab : String) (now : Nat)
    (h : SInv s) : SInv (joinGame s sock gid pid pn rl ab now).state := by
  have h1 : SInv (getOrCreateGame s gid noSettings now) := sInv_getOrCreate _ _ _ _ h
  have hg1 : (mget (getOrCreateGame s gid noSettings now).games gid).isSome :=
    getOrCreate_isSome _ _ _ _
  unfold joinGame
  dsimp only
  cases hg2 : mget (getOrCreateGame s gid noSettings now).games gid with
  | none => simp [hg2] at hg1
  | some game =>
    refine ⟨h1.1, ?_, ?_⟩
    · intro kv hkv tid htid
      rcases mem_mset hkv with hm | hm
      · exact h1.2.1 kv hm tid htid
      · subst hm
        simp only [registeredIds] at htid
        exact h1.2.1 (gid, game) (mem_of_mget hg2) tid htid
    · intro kv hkv
      rcases mem_mset hkv with hm | hm
      · exact isSome_mget_mset _ _ _ _ (h1.2.2 kv hm)
      · subst hm
        simp [mget_mset_self]

theorem sInv_startGameTimer (s : ServerState) (gid : String) (d : Option Nat) (now : Nat)
    (h : SInv s) : SInv (startGameTimer s gid d now).state := by
  unfold startGameTimer
  cases hg : mget s.games gid with
  | none => exact h
  | some game =>
    dsimp only
    have hmem : (gid, game) ∈ s.games := mem_of_mget hg
    cases hgt : game.gameTimer with
    | none =>
      refine ⟨?_, ?_, ?_⟩
      · intro e he
        simp only [TimerPool.arm] at he ⊢
        rcases List.mem_append.mp he with h1 | h1
        · exact Nat.lt_succ_of_lt (h.1 e h1)
        · simp at h1
          subst h1
          exact Nat.lt_succ_self _
      · intro kv hkv tid htid
        simp only [TimerPool.arm]
        rcases mem_mset hkv with hm | hm
        · exact Nat.lt_succ_of_lt (h.2.1 kv hm tid htid)
        · subst hm
          simp only [registeredIds, Option.toList_some, hgt] at htid
          rcases List.mem_append.mp htid with h1 | h1
          · rcases List.mem_append.mp h1 with h2 | h2
            · simp at h2
              subst h2
              exact Nat.lt_succ_self _
            · exact Nat.lt_succ_of_lt (h.2.1 (gid, game) hmem tid
                (by simp [registeredIds, hgt, h2]))
          · exact Nat.lt_succ_of_lt (h.2.1 (gid, game) hmem tid
              (by simp [registeredIds, hgt, h1]))
      · intro kv hkv
        exact isSome_mget_mset _ _ _ _ (h.2.2 kv hkv)
    | some t0 =>
      refine ⟨?_, ?_, ?_⟩
      · intro e he
        simp only [TimerPool.arm, TimerPool.clear] at he ⊢
        rcases List.mem_append.mp he with h1 | h1
        · exact Nat.lt_succ_of_lt (h.1 e (mem_removeId h1).1)
        · simp at h1
          subst h1
          exact Nat.lt_succ_self _
      · intro kv hkv tid htid
        simp only [TimerPool.arm, TimerPool.clear]
        rcases mem_mset hkv with hm | hm
        · exact Nat.lt_succ_of_lt (h.2.1 kv hm tid htid)
        · subst hm
          simp only [registeredIds, Option.toList_some, hgt] at htid
          rcases List.mem_append.mp htid with h1 | h1
          · rcases List.mem_append.mp h1 with h2 | h2
            · simp at h2
              subst h2
              exact Nat.lt_succ_self _
            · exact Nat.lt_succ_of_lt (h.2.1 (gid, game) hmem tid
                (by simp [registeredIds, hgt, h2]))
          · exact Nat.lt_succ_of_lt (h.2.1 (gid, game) hmem tid
              (by simp [registeredIds, hgt, h1]))
      · intro kv hkv
        exact isSome_mget_mset _ _ _ _ (h.2.2 kv hkv)

theorem sInv_startRisk (s : ServerState) (gid pid : String) (d : Option Nat)
    (h : SInv s) : SInv (startEliminationRiskTimer s gid pid d).state := by
  unfold startEliminationRiskTimer
  cases hg : mget s.games gid with
  | none => exact h
  | some game =>
    dsimp only
    cases hp : mget game.players pid with
    | none => exact h
    | some player =>
      dsimp only
      have hmem : (gid, game) ∈ s.games := mem_of_mget hg
      have harm : ∀ (p0 : TimerPool), (∀ e ∈ p0.armed, e.id < p0.nextId) →
          p0.nextId = s.pool.nextId →
          ∀ e ∈ (p0.arm (.riskTimeout gid pid)
            (if player.ability = "MERCENARY" then
              ⌊(↑(orDefault d game.settings.eliminationRiskDuration) : Rat) *
                game.settings.mercenaryMultiplier⌋
             else (orDefault d game.settings.eliminationRiskDuration : Int))).2.armed,
            e.id < p0.nextId + 1 := by
        intro p0 hp0 _ e he
        simp only [TimerPool.arm] at he
        rcases List.mem_append.mp he with h1 | h1
        · exact Nat.lt_succ_of_lt (hp0 e h1)
        · simp at h1
          subst h1
          exact Nat.lt_succ_self _
      have hreg : ∀ (n : Nat), s.pool.nextId ≤ n →
          ∀ kv ∈ mset s.games gid { game with
              eliminationRiskTimers := mset game.eliminationRiskTimers pid n
              players := mset game.players pid { player with status := "elimination_risk" } },
          ∀ tid ∈ registeredIds kv.2, tid < n + 1 := by
        intro n hn kv hkv tid htid
        rcases mem_mset hkv with hm | hm
        · exact lt_of_lt_of_le (h.2.1 kv hm tid htid) (by omega)
        · subst hm
          simp only [registeredIds] at htid
          rcases List.mem_append.mp htid with h1 | h1
          · rcases List.mem_append.mp h1 with h2 | h2
            · exact lt_of_lt_of_le (h.2.1 (gid, game) hmem tid
                (by simp [registeredIds, h2])) (by omega)
            · rcases mem_map_snd_mset h2 with h3 | h3
              · exact lt_of_lt_of_le (h.2.1 (gid, game) hmem tid
                  (by simp [registeredIds, h3])) (by omega)
              · omega
          · exact lt_of_lt_of_le (h.2.1 (gid, game) hmem tid
              (by simp [registeredIds, h1])) (by omega)
      cases hrt : mget game.eliminationRiskTimers pid with
      | none =>
        refine ⟨?_, ?_, ?_⟩
        · intro e he
          exact harm s.pool h.1 rfl e he
        · intro kv hkv tid htid
          exact hreg s.pool.nextId (le_refl _) kv hkv tid htid
        · intro kv hkv
          exact isSome_mget_mset _ _ _ _ (h.2.2 kv hkv)
      | some t0 =>
        refine ⟨?_, ?_, ?_⟩
        · intro e he
          refine harm (s.pool.clear t0) ?_ rfl e he
          intro e' he'
          exact h.1 e' (mem_removeId he').1
        · intro kv hkv tid htid
          exact hreg (s.pool.clear t0).nextId (le_refl _) kv hkv tid htid
        · intro kv hkv
          exact isSome_mget_mset _ _ _ _ (h.2.2 kv hkv)

theorem sInv_stopRisk (s : ServerState) (gid pid : String)
    (h : SInv s) : SInv (stopEliminationRiskTimer s gid pid).state := by
  unfold stopEliminationRiskTimer
  cases hg : mget s.games gid with
  | none => exact h
  | some game =>
    dsimp only
    cases hrt : mget game.eliminationRiskTimers pid with
    | none => exact h
    | some t0 =>
      have hmem : (gid, game) ∈ s.games := mem_of_mget hg
      refine ⟨?_, ?_, ?_⟩
      · intro e he
        exact h.1 e (mem_removeId he).1
      · intro kv hkv tid htid
        rcases mem_mset hkv with hm | hm
        · exact h.2.1 kv hm tid htid
        · subst hm
          simp only [registeredIds] at htid
          rcases List.mem_append.mp htid with h1 | h1
          · rcases List.mem_append.mp h1 with h2 | h2
            · exact h.2.1 (gid, game) hmem tid (by simp [registeredIds, h2])
            · exact h.2.1 (gid, game) hmem tid
                (by simp [registeredIds, mem_map_snd_mdel h2])
          · exact h.2.1 (gid, game) hmem tid (by simp [registeredIds, h1])
      · intro kv hkv
        exact isSome_mget_mset _ _ _ _ (h.2.2 kv hkv)

theorem sInv_startChase (s : ServerState) (gid hid svid : String) (ghost : Bool)
    (h : SInv s) : SInv (startChaseCountdown s gid hid svid ghost).state := by
  unfold startChaseCountdown
  cases hg : mget s.games gid with
  | none => exact h
  | some game =>
    dsimp only
    have hmem : (gid, game) ∈ s.games := mem_of_mget hg
    have harm : ∀ (p0 : TimerPool), (∀ e ∈ p0.armed, e.id < p0.nextId) →
        ∀ cb d, ∀ e ∈ (p0.arm cb d).2.armed, e.id < p0.nextId + 1 := by
      intro p0 hp0 cb d e he
      simp only [TimerPool.arm] at he
      rcases List.mem_append.mp he with h1 | h1
      · exact Nat.lt_succ_of_lt (hp0 e h1)
      · simp at h1
        subst h1
        exact Nat.lt_succ_self _
    have hreg : ∀ (n : Nat), s.pool.nextId ≤ n →
        ∀ kv ∈ mset s.games gid { game with
            chaseTimers := mset game.chaseTimers (chaseKey hid svid) n },
        ∀ tid ∈ registeredIds kv.2, tid < n + 1 := by
      intro n hn kv hkv tid htid
      rcases mem_mset hkv with hm | hm
      · exact lt_of_lt_of_le (h.2.1 kv hm tid htid) (by omega)
      · subst hm
        simp only [registeredIds] at htid
        rcases List.mem_append.mp htid with h1 | h1
        · refine lt_of_lt_of_le (h.2.1 (gid, game) hmem tid ?_) (by omega)
          simp only [registeredIds, List.mem_append] at h1 ⊢
          tauto
        · rcases mem_map_snd_mset h1 with h3 | h3
          · exact lt_of_lt_of_le (h.2.1 (gid, game) hmem tid
              (by simp [registeredIds, h3])) (by omega)
          · omega
    cases hct : mget game.chaseTimers (chaseKey hid svid) with
    | none =>
      refine ⟨fun e he => harm s.pool h.1 _ _ e he,
        fun kv hkv tid htid => hreg s.pool.nextId (le_refl _) kv hkv tid htid,
        fun kv hkv => isSome_mget_mset _ _ _ _ (h.2.2 kv hkv)⟩
    | some t0 =>
      refine ⟨fun e he => harm (s.pool.clear t0)
          (fun e' he' => h.1 e' (mem_removeId he').1) _ _ e he,
        fun kv hkv tid htid => hreg (s.pool.clear t0).nextId (le_refl _) kv hkv tid htid,
        fun kv hkv => isSome_mget_mset _ _ _ _ (h.2.2 kv hkv)⟩

theorem sInv_stopChase (s : ServerState) (gid hid svid : String)
    (h : SInv s) : SInv (stopChaseCountdown s gid hid svid).state := by
  unfold stopChaseCountdown
  cases hg : mget s.games gid with
  | none => exact h
  | some game =>
    dsimp only
    cases hct : mget game.chaseTimers (chaseKey hid svid) with
    | none => exact h
    | some t0 =>
      have hmem : (gid, game) ∈ s.games := mem_of_mget hg
      refine ⟨fun e he => h.1 e (mem_removeId he).1, ?_,
        fun kv hkv => isSome_mget_mset _ _ _ _ (h.2.2 kv hkv)⟩
      intro kv hkv tid htid
      rcases mem_mset hkv with hm | hm
      · exact h.2.1 kv hm tid htid
      · subst hm
        simp only [registeredIds] at htid
        rcases List.mem_append.mp htid with h1 | h1
        · refine h.2.1 (gid, game) hmem tid ?_
          simp only [registeredIds, List.mem_append] at h1 ⊢
          tauto
        · exact h.2.1 (gid, game) hmem tid
            (by simp [registeredIds, mem_map_snd_mdel h1])

theorem sInv_endGame (s : ServerState) (gid reason : String) (now : Nat)
    (h : SInv s) : SInv (endGame s gid reason now).state := by
  unfold endGame
  cases hg : mget s.games gid with
  | none => exact h
  | some game =>
    dsimp only
    have hmem : (gid, game) ∈ s.games := mem_of_mget hg
    have key : ∀ (p0 : TimerPool), (∀ e ∈ p0.armed, e.id < p0.nextId) →
        p0.nextId = s.pool.nextId →
        SInv { s with
          games := mset s.games gid { game with
            status := "ended"
            endedAt := some now
            endReason := some reason
            gameTimer := none
            eliminationRiskTimers := []
            chaseTimers := [] }
          pool := (((p0.clearAll (game.eliminationRiskTimers.map (·.2))).clearAll
            (game.chaseTimers.map (·.2))).arm (.cleanup gid) 300000).2 } := by
      intro p0 hp0 hn
      refine ⟨?_, ?_, ?_⟩
      · intro e he
        simp only [TimerPool.arm] at he ⊢
        rw [nextId_clearAll, nextId_clearAll]
        rcases List.mem_append.mp he with h1 | h1
        · exact Nat.lt_succ_of_lt (hp0 e (mem_clearAll_armed (mem_clearAll_armed h1)))
        · simp at h1
          subst h1
          simp [nextId_clearAll]
      · intro kv hkv tid htid
        simp only [TimerPool.arm]
        rw [nextId_clearAll, nextId_clearAll]
        rcases mem_mset hkv with hm | hm
        · exact Nat.lt_succ_of_lt (hn ▸ h.2.1 kv hm tid htid)
        · subst hm
          simp [registeredIds] at htid
      · intro kv hkv
        exact isSome_mget_mset _ _ _ _ (h.2.2 kv hkv)
    cases hgt : game.gameTimer with
    | none => exact key s.pool h.1 rfl
    | some t0 =>
      exact key (s.pool.clear t0) (fun e he => h.1 e (mem_removeId he).1) rfl

theorem sInv_checkEnd (s : ServerState) (gid : String) (now : Nat)
    (h : SInv s) : SInv (checkGameEndConditions s gid now).1 := by
  unfold checkGameEndConditions
  cases hg : mget s.games gid with
  | none => exact h
  | some game =>
    dsimp only
    split
    · split
      · exact sInv_endGame s gid "all_survivors_eliminated" now h
      · exact h
    · exact h

theorem sInv_eliminate (s : ServerState) (gid pid reason : String) (now : Nat)
    (h : SInv s) : SInv (eliminatePlayer s gid pid reason now).state := by
  unfold eliminatePlayer
  cases hg : mget s.games gid with
  | none => exact h
  | some game =>
    dsimp only
    cases hp : mget game.players pid with
    | none => exact h
    | some player =>
      dsimp only
      have hmem : (gid, game) ∈ s.games := mem_of_mget hg
      have key : ∀ (p0 : TimerPool) (rt1 : List (String × Nat)),
          (∀ e ∈ p0.armed, e.id < p0.nextId) → p0.nextId = s.pool.nextId →
          (∀ tid ∈ rt1.map (·.2), tid ∈ game.eliminationRiskTimers.map (·.2)) →
          SInv { s with
            games := mset s.games gid { game with
              eliminationRiskTimers := rt1
              players := mset game.players pid { player with
                status := "eliminated"
                eliminatedAt := some now
                eliminationReason := some reason } }
            pool := p0 } := by
        intro p0 rt1 hp0 hn hsub
        refine ⟨hp0, ?_, fun kv hkv => isSome_mget_mset _ _ _ _ (h.2.2 kv hkv)⟩
        intro kv hkv tid htid
        rcases mem_mset hkv with hm | hm
        · exact hn ▸ h.2.1 kv hm tid htid
        · subst hm
          simp only [registeredIds] at htid
          rw [hn]
          rcases List.mem_append.mp htid with h1 | h1
          · rcases List.mem_append.mp h1 with h2 | h2
            · exact h.2.1 (gid, game) hmem tid (by simp [registeredIds, h2])
            · exact h.2.1 (gid, game) hmem tid (by simp [registeredIds, hsub tid h2])
          · exact h.2.1 (gid, game) hmem tid (by simp [registeredIds, h1])
      cases hrt : mget game.eliminationRiskTimers pid with
      | none =>
        exact sInv_checkEnd _ _ _ (key s.pool game.eliminationRiskTimers h.1 rfl
          (fun tid htid => htid))
      | some t0 =>
        exact sInv_checkEnd _ _ _ (key (s.pool.clear t0)
          (mdel game.eliminationRiskTimers pid)
          (fun e he => h.1 e (mem_removeId he).1) rfl
          (fun tid htid => mem_map_snd_mdel htid))

theorem sInv_chaseTimeout (s : ServerState) (gid hid svid : String)
    (h : SInv s) : SInv (chaseTimeout s gid hid svid).1 := by
  unfold chaseTimeout
  cases hg : mget s.games gid with
  | none => exact h
  | some game =>
    dsimp only
    have hmem : (gid, game) ∈ s.games := mem_of_mget hg
    refine ⟨h.1, ?_, fun kv hkv => isSome_mget_mset _ _ _ _ (h.2.2 kv hkv)⟩
    intro kv hkv tid htid
    rcases mem_mset hkv with hm | hm
    · exact h.2.1 kv hm tid htid
    · subst hm
      simp only [registeredIds] at htid
      rcases List.mem_append.mp htid with h1 | h1
      · refine h.2.1 (gid, game) hmem tid ?_
        simp only [registeredIds, List.mem_append] at h1 ⊢
        tauto
      · exact h.2.1 (gid, game) hmem tid
          (by simp [registeredIds, mem_map_snd_mdel h1])

theorem sInv_cleanupGame (s : ServerState) (gid : String)
    (h : SInv s) : SInv (cleanupGame s gid) := by
  unfold cleanupGame
  cases hg : mget s.games gid with
  | none => exact h
  | some game =>
    dsimp only
    refine ⟨h.1, ?_, ?_⟩
    · intro kv hkv tid htid
      exact h.2.1 kv (mem_mdel hkv) tid htid
    · intro kv hkv
      have hd := mem_dropBindingsFor hkv
      rw [mget_mdel_ne s.games hd.2]
      exact h.2.2 kv hd.1

theorem sInv_disconnect (s : ServerState) (sock : String)
    (h : SInv s) : SInv (disconnectPlayer s sock).1 := by
  unfold disconnectPlayer
  cases hb : mget s.bindings sock with
  | none => exact h
  | some b =>
    dsimp only
    cases hg : mget s.games b.gameId with
    | none =>
      exact ⟨h.1, h.2.1, fun kv hkv => h.2.2 kv (mem_mdel hkv)⟩
    | some game =>
      dsimp only
      have hmem : (b.gameId, game) ∈ s.games := mem_of_mget hg
      have key : ∀ (p0 : TimerPool) (rt1 : List (String × Nat)),
          (∀ e ∈ p0.armed, e.id < p0.nextId) → p0.nextId = s.pool.nextId →
          (∀ tid ∈ rt1.map (·.2), tid ∈ game.eliminationRiskTimers.map (·.2)) →
          SInv { s with
            games := mset s.games b.gameId { game with
              players := mdel game.players b.playerId
              eliminationRiskTimers := rt1 }
            bindings := mdel s.bindings sock
            pool := p0 } := by
        intro p0 rt1 hp0 hn hsub
        refine ⟨hp0, ?_, ?_⟩
        · intro kv hkv tid htid
          rw [hn]
          rcases mem_mset hkv with hm | hm
          · exact h.2.1 kv hm tid htid
          · subst hm
            simp only [registeredIds] at htid
            rcases List.mem_append.mp htid with h1 | h1
            · rcases List.mem_append.mp h1 with h2 | h2
              · exact h.2.1 (b.gameId, game) hmem tid (by simp [registeredIds, h2])
              · exact h.2.1 (b.gameId, game) hmem tid
                  (by simp [registeredIds, hsub tid h2])
            · exact h.2.1 (b.gameId, game) hmem tid (by simp [registeredIds, h1])
        · intro kv hkv
          exact isSome_mget_mset _ _ _ _ (h.2.2 kv (mem_mdel hkv))
      cases hrt : mget game.eliminationRiskTimers b.playerId with
      | none => exact key s.pool game.eliminationRiskTimers h.1 rfl (fun tid htid => htid)
      | some t0 =>
        exact key (s.pool.clear t0) (mdel game.eliminationRiskTimers b.playerId)
          (fun e he => h.1 e (mem_removeId he).1) rfl
          (fun tid htid => mem_map_snd_mdel htid)

theorem sInv_poolClear (s : ServerState) (tid : Nat) (h : SInv s) :
    SInv { s with pool := s.pool.clear tid } :=
  ⟨fun e he => h.1 e (mem_removeId he).1, h.2.1, h.2.2⟩

theorem sInv_fire (s : ServerState) (tid : Nat) (now : Nat)
    (h : SInv s) : SInv (fireTimer s tid now).1 := by
  unfold fireTimer
  cases hf : findId s.pool.armed tid with
  | none => exact h
  | some e =>
    dsimp only
    have h1 : SInv { s with pool := s.pool.clear tid } := sInv_poolClear s tid h
    cases e.cb with
    | gameTimeout gid => exact sInv_endGame _ _ _ _ h1
    | riskTimeout gid pid => exact sInv_eliminate _ _ _ _ _ h1
    | chaseFire gid hid svid => exact sInv_chaseTimeout _ _ _ _ h1
    | cleanup gid => exact sInv_cleanupGame _ _ h1

theorem sInv_step (s : ServerState) (a : Act) (h : SInv s) : SInv (step s a) := by
  cases a with
  | join sock gid pid pn rl ab now => exact sInv_joinGame s sock gid pid pn rl ab now h
  | startGame gid d now => exact sInv_startGameTimer s gid d now h
  | startRisk gid pid d => exact sInv_startRisk s gid pid d h
  | stopRisk gid pid => exact sInv_stopRisk s gid pid h
  | startChase gid hid svid ghost => exact sInv_startChase s gid hid svid ghost h
  | stopChase gid hid svid => exact sInv_stopChase s gid hid svid h
  | eliminate gid pid reason now => exact sInv_eliminate s gid pid reason now h
  | endGameAct gid reason now => exact sInv_endGame s gid reason now h
  | disconnect sock => exact sInv_disconnect s sock h
  | fire tid now => exact sInv_fire s tid now h

theorem sInv_reach {s s' : ServerState} (h : Reach s s') (hs : SInv s) : SInv s' := by
  induction h with
  | refl => exact hs
  | tail _ hbc ih =>
    obtain ⟨a, rfl⟩ := hbc
    exact sInv_step _ a ih

theorem sInv_of_reach_init {s : ServerState} (h : Reach initState s) : SInv s :=
  sInv_reach h sInv_initState

theorem statusOf_set (games : List (String × Game)) (bnd : List (String × Binding))
    (pool : TimerPool) (g0 gid : String) (game' : Game) :
    statusOf ⟨mset games g0 game', bnd, pool⟩ gid =
      if gid = g0 then some game'.status else (mget games gid).map (·.status) := by
  unfold statusOf
  by_cases h : gid = g0
  · subst h
    simp [mget_mset_self]
  · simp [h, mget_mset_ne games game' h]

theorem statusOf_getOrCreate (s : ServerState) (g0 : String) (ps : PartialSettings)
    (now : Nat) (gid : String) :
    statusOf (getOrCreateGame s g0 ps now) gid = statusOf s gid ∨
    (statusOf s gid = none ∧ statusOf (getOrCreateGame s g0 ps now) gid = some "waiting") := by
  unfold getOrCreateGame
  cases hg : mget s.games g0 with
  | some g => exact Or.inl rfl
  | none =>
    dsimp only
    rw [statusOf_set]
    by_cases h : gid = g0
    · subst h
      exact Or.inr ⟨by simp [statusOf, hg], by simp⟩
    · simp [h, statusOf]

theorem statusOf_joinGame (s : ServerState) (sock g0 pid pn rl ab : String) (now : Nat)
    (gid : String) :
    statusOf (joinGame s sock g0 pid pn rl ab now).state gid = statusOf s gid ∨
    (statusOf s gid = none ∧
      statusOf (joinGame s sock g0 pid pn rl ab now).state gid = some "waiting") := by
  unfold joinGame
  dsimp only
  have hbase := statusOf_getOrCreate s g0 noSettings now gid
  cases hg2 : mget (getOrCreateGame s g0 noSettings now).games g0 with
  | none =>
    dsimp only
    rcases hbase with h | h
    · exact Or.inl h
    · exact Or.inr h
  | some game =>
    dsimp only
    rw [statusOf_set]
    by_cases h : gid = g0
    · subst h
      have hst : statusOf (getOrCreateGame s gid noSettings now) gid = some game.status := by
        simp [statusOf, hg2]
      rcases hbase with hb | hb
      · rw [hst] at hb
        simp only [eq_self_iff_true, if_true]
        exact Or.inl hb
      · rw [hst] at hb
        simp only [eq_self_iff_true, if_true]
        exact Or.inr ⟨hb.1, hb.2⟩
    · simp only [if_neg h]
      have hme : (mget (getOrCreateGame s g0 noSettings now).games gid).map (·.status)
          = statusOf (getOrCreateGame s g0 noSettings now) gid := rfl
      rw [hme]
      exact hbase

theorem statusOf_startGameTimer (s : ServerState) (g0 : String) (d : Option Nat) (now : Nat)
    (gid : String) (h : gid ≠ g0) :
    statusOf (startGameTimer s g0 d now).state gid = statusOf s gid := by
  unfold startGameTimer
  cases hg : mget s.games g0 with
  | none => rfl
  | some game =>
    dsimp only
    cases hgt : game.gameTimer <;> dsimp only <;> rw [statusOf_set] <;> simp [h, statusOf]

theorem statusOf_startRisk (s : ServerState) (g0 pid : String) (d : Option Nat)
    (gid : String) :
    statusOf (startEliminationRiskTimer s g0 pid d).state gid = statusOf s gid := by
  unfold startEliminationRiskTimer
  cases hg : mget s.games g0 with
  | none => rfl
  | some game =>
    dsimp only
    cases hp : mget game.players pid with
    | none => rfl
    | some player =>
      dsimp only
      cases hrt : mget game.eliminationRiskTimers pid <;> dsimp only <;>
          rw [statusOf_set] <;> by_cases h : gid = g0
      · subst h
        simp [statusOf, hg]
      · simp [h, statusOf]
      · subst h
        simp [statusOf, hg]
      · simp [h, statusOf]

theorem statusOf_stopRisk (s : ServerState) (g0 pid : String) (gid : String) :
    statusOf (stopEliminationRiskTimer s g0 pid).state gid = statusOf s gid := by
  unfold stopEliminationRiskTimer
  cases hg : mget s.games g0 with
  | none => rfl
  | some game =>
    dsimp only
    cases hrt : mget game.eliminationRiskTimers pid with
    | none => rfl
    | some t0 =>
      dsimp only
      rw [statusOf_set]
      by_cases h : gid = g0
      · subst h
        simp [statusOf, hg]
      · simp [h, statusOf]

theorem statusOf_startChase (s : ServerState) (g0 hid svid : String) (ghost : Bool)
    (gid : String) :
    statusOf (startChaseCountdown s g0 hid svid ghost).state gid = statusOf s gid := by
  unfold startChaseCountdown
  cases hg : mget s.games g0 with
  | none => rfl
  | some game =>
    dsimp only
    cases hct : mget game.chaseTimers (chaseKey hid svid) <;> dsimp only <;>
        rw [statusOf_set] <;> by_cases h : gid = g0
    · subst h
      simp [statusOf, hg]
    · simp [h, statusOf]
    · subst h
      simp [statusOf, hg]
    · simp [h, statusOf]

theorem statusOf_stopChase (s : ServerState) (g0 hid svid : String) (gid : String) :
    statusOf (stopChaseCountdown s g0 hid svid).state gid = statusOf s gid := by
  unfold stopChaseCountdown
  cases hg : mget s.games g0 with
  | none => rfl
  | some game =>
    dsimp only
    cases hct : mget game.chaseTimers (chaseKey hid svid) with
    | none => rfl
    | some t0 =>
      dsimp only
      rw [statusOf_set]
      by_cases h : gid = g0
      · subst h
        simp [statusOf, hg]
      · simp [h, statusOf]

theorem statusOf_chaseTimeout (s : ServerState) (g0 hid svid : String) (gid : String) :
    statusOf (chaseTimeout s g0 hid svid).1 gid = statusOf s gid := by
  unfold chaseTimeout
  cases hg : mget s.games g0 with
  | none => rfl
  | some game =>
    dsimp only
    rw [statusOf_set]
    by_cases h : gid = g0
    · subst h
      simp [statusOf, hg]
    · simp [h, statusOf]

theorem statusOf_endGame (s : ServerState) (g0 reason : String) (now : Nat) (gid : String) :
    statusOf (endGame s g0 reason now).state gid = statusOf s gid ∨
    statusOf (endGame s g0 reason now).state gid = some "ended" := by
  unfold endGame
  cases hg : mget s.games g0 with
  | none => exact Or.inl rfl
  | some game =>
    dsimp only
    cases hgt : game.gameTimer <;> dsimp only <;> rw [statusOf_set] <;> by_cases h : gid = g0
    · subst h
      simp
    · simp [h, statusOf]
    · subst h
      simp
    · simp [h, statusOf]

theorem statusOf_checkEnd (s : ServerState) (g0 : String) (now : Nat) (gid : String) :
    statusOf (checkGameEndConditions s g0 now).1 gid = statusOf s gid ∨
    statusOf (checkGameEndConditions s g0 now).1 gid = some "ended" := by
  unfold checkGameEndConditions
  cases hg : mget s.games g0 with
  | none => exact Or.inl rfl
  | some game =>
    dsimp only
    split
    · split
      · exact statusOf_endGame s g0 "all_survivors_eliminated" now gid
      · exact Or.inl rfl
    · exact Or.inl rfl

theorem statusOf_eliminate (s : ServerState) (g0 pid reason : String) (now : Nat)
    (gid : String) :
    statusOf (eliminatePlayer s g0 pid reason now).state gid = statusOf s gid ∨
    statusOf (eliminatePlayer s g0 pid reason now).state gid = some "ended" := by
  unfold eliminatePlayer
  cases hg : mget s.games g0 with
  | none => exact Or.inl rfl
  | some game =>
    dsimp only
    cases hp : mget game.players pid with
    | none => exact Or.inl rfl
    | some player =>
      dsimp only
      have key : ∀ (p0 : TimerPool) (rt1 : List (String × Nat)),
          statusOf { s with
            games := mset s.games g0 { game with
              eliminationRiskTimers := rt1
              players := mset game.players pid { player with
                status := "eliminated"
                eliminatedAt := some now
                eliminationReason := some reason } }
            pool := p0 } gid = statusOf s gid := by
        intro p0 rt1
        rw [statusOf_set]
        by_cases h : gid = g0
        · subst h
          simp [statusOf, hg]
        · simp [h, statusOf]
      cases hrt : mget game.eliminationRiskTimers pid with
      | none =>
        dsimp only
        cases statusOf_checkEnd { s with
            games := mset s.games g0 { game with
              eliminationRiskTimers := game.eliminationRiskTimers
              players := mset game.players pid { player with
                status := "eliminated"
                eliminatedAt := some now
                eliminationReason := some reason } }
            pool := s.pool } g0 now gid with
        | inl hc => exact Or.inl (by rw [hc, key])
        | inr hc => exact Or.inr hc
      | some t0 =>
        dsimp only
        cases statusOf_checkEnd { s with
            games := mset s.games g0 { game with
              eliminationRiskTimers := mdel game.eliminationRiskTimers pid
              players := mset game.players pid { player with
                status := "eliminated"
                eliminatedAt := some now
                eliminationReason := some reason } }
            pool := s.pool.clear t0 } g0 now gid with
        | inl hc => exact Or.inl (by rw [hc, key])
        | inr hc => exact Or.inr hc

theorem statusOf_cleanup (s : ServerState) (g0 : String) (gid : String) :
    statusOf (cleanupGame s g0) gid = statusOf s gid ∨
    statusOf (cleanupGame s g0) gid = none := by
  unfold cleanupGame
  cases hg : mget s.games g0 with
  | none => exact Or.inl rfl
  | some game =>
    dsimp only
    by_cases h : gid = g0
    · subst h
      exact Or.inr (by simp [statusOf, mget_mdel_self])
    · exact Or.inl (by simp [statusOf, mget_mdel_ne s.games h])

theorem statusOf_disconnect (s : ServerState) (sock : String) (gid : String) :
    statusOf (disconnectPlayer s sock).1 gid = statusOf s gid := by
  unfold disconnectPlayer
  cases hb : mget s.bindings sock with
  | none => rfl
  | some b =>
    dsimp only
    cases hg : mget s.games b.gameId with
    | none => rfl
    | some game =>
      dsimp only
      have key : ∀ (p0 : TimerPool) (rt1 : List (String × Nat)),
          statusOf { s with
            games := mset s.games b.gameId { game with
              players := mdel game.players b.playerId
              eliminationRiskTimers := rt1 }
            bindings := mdel s.bindings sock
            pool := p0 } gid = statusOf s gid := by
        intro p0 rt1
        rw [statusOf_set]
        by_cases h : gid = b.gameId
        · subst h
          simp [statusOf, hg]
        · simp [h, statusOf]
      cases hrt : mget game.eliminationRiskTimers b.playerId <;> dsimp only <;> exact key _ _

theorem statusOf_fire (s : ServerState) (tid : Nat) (now : Nat) (gid : String) :
    statusOf (fireTimer s tid now).1 gid = statusOf s gid ∨
    statusOf (fireTimer s tid now).1 gid = some "ended" ∨
    statusOf (fireTimer s tid now).1 gid = none := by
  unfold fireTimer
  cases hf : findId s.pool.armed tid with
  | none => exact Or.inl rfl
  | some e =>
    dsimp only
    have hclr : statusOf { s with pool := s.pool.clear tid } gid = statusOf s gid := rfl
    cases e.cb with
    | gameTimeout g0 =>
      rcases statusOf_endGame { s with pool := s.pool.clear tid } g0 "timeout" now gid
        with h | h
      · exact Or.inl (h.trans hclr)
      · exact Or.inr (Or.inl h)
    | riskTimeout g0 pid =>
      rcases statusOf_eliminate { s with pool := s.pool.clear tid } g0 pid
        "elimination_risk_timeout" now gid with h | h
      · exact Or.inl (h.trans hclr)
      · exact Or.inr (Or.inl h)
    | chaseFire g0 hid svid =>
      exact Or.inl ((statusOf_chaseTimeout { s with pool := s.pool.clear tid }
        g0 hid svid gid).trans hclr)
    | cleanup g0 =>
      rcases statusOf_cleanup { s with pool := s.pool.clear tid } g0 gid with h | h
      · exact Or.inl (h.trans hclr)
      · exact Or.inr (Or.inr h)

/-- Does this action invoke `startGameTimer` on the given game? -/
def isStartGameFor (a : Act) (gid : String) : Prop :=
  match a with
  | .startGame gid' _ _ => gid' = gid
  | _ => False

/-- Claim C6, counterexample: a game whose status is 'ended' is moved back
to 'playing' by `startGameTimer`, which never checks the status, so
'ended' is not terminal. -/
theorem c6_counterexample :
    statusOf (endGame (getOrCreateGame initState "g" noSettings 0) "g" "manual" 1).state "g"
      = some "ended" ∧
    statusOf (startGameTimer
      (endGame (getOrCreateGame initState "g" noSettings 0) "g" "manual" 1).state
      "g" none 2).state "g" = some "playing" := by
  exact ⟨rfl, rfl⟩

/-- Claim C6 (amended): while a game exists with status 'ended', every
operation other than a `startGameTimer` aimed at it leaves the status
'ended' (or removes the game entirely, via the deferred cleanup);
`startGameTimer` itself moves an ended game back to 'playing'. -/
theorem c6_ended_stable (s : ServerState) (a : Act) (gid : String)
    (hs : statusOf s gid = some "ended") (hna : ¬ isStartGameFor a gid) :
    statusOf (step s a) gid = some "ended" ∨ statusOf (step s a) gid = none := by
  cases a with
  | join sock g0 pid pn rl ab now =>
    rcases statusOf_joinGame s sock g0 pid pn rl ab now gid with h | h
    · exact Or.inl (h.trans hs)
    · rw [hs] at h
      exact absurd h.1 (by simp)
  | startGame g0 d now =>
    have hne : gid ≠ g0 := fun hc => hna (show g0 = gid from hc.symm)
    exact Or.inl ((statusOf_startGameTimer s g0 d now gid hne).trans hs)
  | startRisk g0 pid d =>
    exact Or.inl ((statusOf_startRisk s g0 pid d gid).trans hs)
  | stopRisk g0 pid =>
    exact Or.inl ((statusOf_stopRisk s g0 pid gid).trans hs)
  | startChase g0 hid svid ghost =>
    exact Or.inl ((statusOf_startChase s g0 hid svid ghost gid).trans hs)
  | stopChase g0 hid svid =>
    exact Or.inl ((statusOf_stopChase s g0 hid svid gid).trans hs)
  | eliminate g0 pid reason now =>
    rcases statusOf_eliminate s g0 pid reason now gid with h | h
    · exact Or.inl (h.trans hs)
    · exact Or.inl h
  | endGameAct g0 reason now =>
    rcases statusOf_endGame s g0 reason now gid with h | h
    · exact Or.inl (h.trans hs)
    · exact Or.inl h
  | disconnect sock =>
    exact Or.inl ((statusOf_disconnect s sock gid).trans hs)
  | fire tid now =>
    rcases statusOf_fire s tid now gid with h | h | h
    · exact Or.inl (h.trans hs)
    · exact Or.inl h
    · exact Or.inr h

/-- Witness for the amended C6 theorem at a concrete ended game and a
concrete non-start action. -/
theorem c6_ended_stable_witness :
    statusOf (step
      (endGame (getOrCreateGame initState "g" noSettings 0) "g" "manual" 1).state
      (.stopRisk "g" "p")) "g" = some "ended" ∨
    statusOf (step
      (endGame (getOrCreateGame initState "g" noSettings 0) "g" "manual" 1).state
      (.stopRisk "g" "p")) "g" = none :=
  c6_ended_stable _ (.stopRisk "g" "p") "g" rfl (fun h => h)

/-- Claim C5, counterexample: the `...settings` spread comes after the
`mercenaryMultiplier: 3.0` literal, so a caller-supplied value overrides
it — a game built with `mercenaryMultiplier: 5` keeps 5, not 3.0. -/
theorem c5_counterexample :
    (mget (getOrCreateGame initState "g"
        { mercenaryMultiplier := some 5 } 0).games "g").map
      (fun g => g.settings.mercenaryMultiplier) = some 5 ∧ (5 : Rat) ≠ 3 := by
  refine ⟨rfl, by norm_num⟩

/-- Claim C5 (amended): a freshly built game's `mercenaryMultiplier` is
3.0 only by default — it equals the caller-supplied value whenever one is
present in the settings argument, because the object spread follows the
3.0 literal. -/
theorem c5_merc_default (s : ServerState) (gid : String) (ps : PartialSettings) (now : Nat)
    (h : mget s.games gid = none) :
    (mget (getOrCreateGame s gid ps now).games gid).map
      (fun g => g.settings.mercenaryMultiplier) = some (ps.mercenaryMultiplier.getD 3) := by
  unfold getOrCreateGame
  rw [h]
  simp [mget_mset_self, mergeSettings]

/-- Witness for the amended C5 theorem at a fresh game and an explicit
multiplier. -/
theorem c5_merc_default_witness :
    (mget (getOrCreateGame initState "g"
        { mercenaryMultiplier := some 7 } 0).games "g").map
      (fun g => g.settings.mercenaryMultiplier) = some 7 :=
  c5_merc_default initState "g" { mercenaryMultiplier := some 7 } 0 rfl

/-- The player record visible for (gameId, playerId), if both exist. -/
def playerOf (s : ServerState) (gid pid : String) : Option Player :=
  (mget s.games gid).bind (fun g => mget g.players pid)

/-- Claim C8, counterexample: `eliminatePlayer` returns the identical bare
boolean `false` both when the game is absent and when the game exists but
the player is absent — the result does not discriminate failure reasons. -/
theorem c8_counterexample :
    mget initState.games "g" = none ∧
    (∃ game, mget (getOrCreateGame initState "g" noSettings 0).games "g" = some game ∧
      mget game.players "p" = none) ∧
    (eliminatePlayer initState "g" "p" "x" 0).ret
      = (eliminatePlayer (getOrCreateGame initState "g" noSettings 0) "g" "p" "x" 0).ret := by
  exact ⟨rfl, ⟨_, rfl, rfl⟩, rfl⟩

/-- Claim C8 (amended): every Game State Machine operation returns the
bare boolean of the source — true exactly on its success condition and
false for every failure cause alike, with no discrimination between
game-absent, player-absent and timer-not-running. -/
theorem c8_bare_boolean_returns :
    (∀ s gid d now, (startGameTimer s gid d now).ret = (mget s.games gid).isSome) ∧
    (∀ s gid pid d, (startEliminationRiskTimer s gid pid d).ret =
      ((mget s.games gid).bind (fun g => mget g.players pid)).isSome) ∧
    (∀ s gid pid, (stopEliminationRiskTimer s gid pid).ret =
      ((mget s.games gid).bind (fun g => mget g.eliminationRiskTimers pid)).isSome) ∧
    (∀ s gid hid svid ghost, (startChaseCountdown s gid hid svid ghost).ret =
      (mget s.games gid).isSome) ∧
    (∀ s gid hid svid, (stopChaseCountdown s gid hid svid).ret =
      ((mget s.games gid).bind (fun g => mget g.chaseTimers (chaseKey hid svid))).isSome) ∧
    (∀ s gid pid reason now, (eliminatePlayer s gid pid reason now).ret =
      ((mget s.games gid).bind (fun g => mget g.players pid)).isSome) ∧
    (∀ s gid reason now, (endGame s gid reason now).ret = (mget s.games gid).isSome) := by
  refine ⟨?_, ?_, ?_, ?_, ?_, ?_, ?_⟩
  · intro s gid d now
    unfold startGameTimer
    cases hg : mget s.games gid with
    | none => rfl
    | some game =>
      dsimp only
      cases hgt : game.gameTimer <;> rfl
  · intro s gid pid d
    unfold startEliminationRiskTimer
    cases hg : mget s.games gid with
    | none => rfl
    | some game =>
      simp only [Option.some_bind]
      cases hp : mget game.players pid with
      | none => rfl
      | some player =>
        dsimp only
        cases hrt : mget game.eliminationRiskTimers pid <;> rfl
  · intro s gid pid
    unfold stopEliminationRiskTimer
    cases hg : mget s.games gid with
    | none => rfl
    | some game =>
      simp only [Option.some_bind]
      cases hrt : mget game.eliminationRiskTimers pid <;> rfl
  · intro s gid hid svid ghost
    unfold startChaseCountdown
    cases hg : mget s.games gid with
    | none => rfl
    | some game =>
      dsimp only
      cases hct : mget game.chaseTimers (chaseKey hid svid) <;> rfl
  · intro s gid hid svid
    unfold stopChaseCountdown
    cases hg : mget s.games gid with
    | none => rfl
    | some game =>
      simp only [Option.some_bind]
      cases hct : mget game.chaseTimers (chaseKey hid svid) <;> rfl
  · intro s gid pid reason now
    unfold eliminatePlayer
    cases hg : mget s.games gid with
    | none => rfl
    | some game =>
      simp only [Option.some_bind]
      cases hp : mget game.players pid with
      | none => rfl
      | some player =>
        dsimp only
        cases hrt : mget game.eliminationRiskTimers pid <;> rfl
  · intro s gid reason now
    unfold endGame
    cases hg : mget s.games gid with
    | none => rfl
    | some game =>
      dsimp only
      cases hgt : game.gameTimer <;> rfl

theorem playerOf_endGame (s : ServerState) (g0 reason : String) (now : Nat)
    (gid pid : String) :
    playerOf (endGame s g0 reason now).state gid pid = playerOf s gid pid := by
  unfold endGame
  cases hg : mget s.games g0 with
  | none => rfl
  | some game =>
    dsimp only
    have key : ∀ (p0 : TimerPool) (game' : Game), game'.players = game.players →
        playerOf { s with games := mset s.games g0 game', pool := p0 } gid pid
          = playerOf s gid pid := by
      intro p0 game' hpl
      unfold playerOf
      by_cases h : gid = g0
      · subst h
        simp [mget_mset_self, hg, hpl]
      · simp [mget_mset_ne s.games _ h]
    cases hgt : game.gameTimer <;> exact key _ _ rfl

theorem playerOf_checkEnd (s : ServerState) (g0 : String) (now : Nat) (gid pid : String) :
    playerOf (checkGameEndConditions s g0 now).1 gid pid = playerOf s gid pid := by
  unfold checkGameEndConditions
  cases hg : mget s.games g0 with
  | none => rfl
  | some game =>
    dsimp only
    split
    · split
      · exact playerOf_endGame s g0 "all_survivors_eliminated" now gid pid
      · rfl
    · rfl

/-- Claim C9, counterexample: a second `eliminatePlayer` call for an
already-eliminated player overwrites both `eliminatedAt` and
`eliminationReason` (the assignments are unconditional), so the fields
are not immutable after the first elimination. -/
theorem c9_counterexample :
    (playerOf (eliminatePlayer
        (joinGame initState "k" "g" "p" "nm" "hunter" "NONE" 0).state
        "g" "p" "a" 5).state "g" "p").map (fun p => (p.eliminatedAt, p.eliminationReason))
      = some (some 5, some "a") ∧
    (playerOf (eliminatePlayer (eliminatePlayer
        (joinGame initState "k" "g" "p" "nm" "hunter" "NONE" 0).state
        "g" "p" "a" 5).state "g" "p" "b" 9).state "g" "p").map
          (fun p => (p.eliminatedAt, p.eliminationReason))
      = some (some 9, some "b") ∧
    (some (5 : Nat), some "a") ≠ (some 9, some "b") := by
  refine ⟨rfl, rfl, by decide⟩

/-- Claim C9 (amended): every `eliminatePlayer` call on an existing game
and player unconditionally overwrites the player's status, `eliminatedAt`
and `eliminationReason` with the current values — last write wins; a
second call for an already-eliminated player updates both fields. -/
theorem c9_elim_fields_overwritten (s : ServerState) (gid pid reason : String) (now : Nat)
    (game : Game) (player : Player)
    (hg : mget s.games gid = some game) (hp : mget game.players pid = some player) :
    playerOf (eliminatePlayer s gid pid reason now).state gid pid =
      some { player with
        status := "eliminated"
        eliminatedAt := some now
        eliminationReason := some reason } := by
  unfold eliminatePlayer
  simp only [hg, hp]
  have key : ∀ (p0 : TimerPool) (rt1 : List (String × Nat)),
      playerOf (checkGameEndConditions { s with
        games := mset s.games gid { game with
          eliminationRiskTimers := rt1
          players := mset game.players pid { player with
            status := "eliminated"
            eliminatedAt := some now
            eliminationReason := some reason } }
        pool := p0 } gid now).1 gid pid = some { player with
          status := "eliminated"
          eliminatedAt := some now
          eliminationReason := some reason } := by
    intro p0 rt1
    rw [playerOf_checkEnd]
    unfold playerOf
    simp [mget_mset_self]
  cases hrt : mget game.eliminationRiskTimers pid <;> dsimp only <;> exact key _ _

/-- Witness for the amended C9 theorem at a concrete game and player. -/
theorem c9_elim_fields_overwritten_witness :
    playerOf (eliminatePlayer
        (joinGame initState "k" "g" "p" "nm" "hunter" "NONE" 0).state
        "g" "p" "m" 4).state "g" "p" =
      some ⟨"p", "nm", "hunter", "NONE", "k", "eliminated", 0, some 4, some "m"⟩ :=
  c9_elim_fields_overwritten _ "g" "p" "m" 4
    ⟨"g", [("p", ⟨"p", "nm", "hunter", "NONE", "k", "alive", 0, none, none⟩)], "waiting",
      ⟨600000, 100000, 5000, 3, 3000⟩, none, [], [], none, none, none, none, 0⟩
    ⟨"p", "nm", "hunter", "NONE", "k", "alive", 0, none, none⟩ rfl rfl

theorem findId_append_last {l : List TimerEntry} {tid : Nat} (h : ∀ e ∈ l, e.id ≠ tid)
    (e0 : TimerEntry) (he : e0.id = tid) : findId (l ++ [e0]) tid = some e0 := by
  induction l with
  | nil => simp [findId, he]
  | cons hd t ih =>
    have hhd : hd.id ≠ tid := h hd (by simp)
    simp only [List.cons_append, findId, if_neg hhd]
    exact ih (fun e hmem => h e (List.mem_cons_of_mem _ hmem))

theorem floor_rat_three (n : Nat) : ⌊(n : Rat) * 3⌋ = 3 * (n : Int) := by
  have hcast : ((n : Rat)) * 3 = ((3 * (n : Int) : Int) : Rat) := by
    push_cast
    ring
  rw [hcast, Int.floor_intCast]

/-- Claim C4, counterexample: a supplied duration of 0 is falsy for the
`||` default, so the armed duration is floor(default × 3) = 300000 rather
than the claimed floor(0 × 3) = 0. -/
theorem c4_counterexample :
    (findId (startEliminationRiskTimer
        (joinGame initState "k" "g" "p" "nm" "survivor" "MERCENARY" 0).state
        "g" "p" (some 0)).state.pool.armed 0).map (·.duration) = some 300000 ∧
    (⌊((0 : Nat) : Rat) * 3⌋ : Int) = 0 ∧ (300000 : Int) ≠ 0 := by
  refine ⟨?_, ?_, by norm_num⟩
  · have h1 : (findId (startEliminationRiskTimer
        (joinGame initState "k" "g" "p" "nm" "survivor" "MERCENARY" 0).state
        "g" "p" (some 0)).state.pool.armed 0).map (·.duration)
        = some ⌊((100000 : Nat) : Rat) * 3⌋ := rfl
    rw [h1, floor_rat_three]
    norm_num
  · rw [floor_rat_three]
    norm_num

/-- Claim C4 (amended): `startEliminationRiskTimer` arms a timer whose
duration is floor(base × mercenaryMultiplier) for a MERCENARY player and
base unchanged otherwise, where base is the supplied duration when it is
nonzero and `settings.eliminationRiskDuration` otherwise (JS `||`); under
the default multiplier 3.0 the MERCENARY duration is exactly 3 × base. -/
theorem c4_mercenary_duration (s : ServerState) (gid pid : String) (d : Option Nat)
    (game : Game) (player : Player)
    (hg : mget s.games gid = some game) (hp : mget game.players pid = some player)
    (hwf : ∀ e ∈ s.pool.armed, e.id < s.pool.nextId) :
    ∃ tid,
      (mget (startEliminationRiskTimer s gid pid d).state.games gid).bind
        (fun g => mget g.eliminationRiskTimers pid) = some tid ∧
      (findId (startEliminationRiskTimer s gid pid d).state.pool.armed tid).map (·.duration)
        = some (if player.ability = "MERCENARY" then
            ⌊(orDefault d game.settings.eliminationRiskDuration : Rat) *
              game.settings.mercenaryMultiplier⌋
          else (orDefault d game.settings.eliminationRiskDuration : Int)) ∧
      (game.settings.mercenaryMultiplier = 3 → player.ability = "MERCENARY" →
        (findId (startEliminationRiskTimer s gid pid d).state.pool.armed tid).map (·.duration)
          = some (3 * (orDefault d game.settings.eliminationRiskDuration : Int))) := by
  unfold startEliminationRiskTimer
  simp only [hg, hp]
  have key : ∀ (p1 : TimerPool), p1.nextId = s.pool.nextId →
      (∀ e ∈ p1.armed, e ∈ s.pool.armed) →
      findId (p1.arm (.riskTimeout gid pid)
        (if player.ability = "MERCENARY" then
          ⌊(orDefault d game.settings.eliminationRiskDuration : Rat) *
            game.settings.mercenaryMultiplier⌋
        else (orDefault d game.settings.eliminationRiskDuration : Int))).2.armed s.pool.nextId
        = some ⟨s.pool.nextId, .riskTimeout gid pid,
            if player.ability = "MERCENARY" then
              ⌊(orDefault d game.settings.eliminationRiskDuration : Rat) *
                game.settings.mercenaryMultiplier⌋
            else (orDefault d game.settings.eliminationRiskDuration : Int)⟩ := by
    intro p1 hn hsub
    rw [← hn]
    simp only [TimerPool.arm]
    refine findId_append_last ?_ _ rfl
    intro e he
    have h1 := hwf e (hsub e he)
    omega
  cases hrt : mget game.eliminationRiskTimers pid with
  | none =>
    refine ⟨s.pool.nextId, ?_, ?_, ?_⟩
    · simp only [mget_mset_self, Option.some_bind]
      rfl
    · rw [key s.pool rfl (fun e he => he)]
      rfl
    · intro hm ha
      rw [key s.pool rfl (fun e he => he)]
      simp [ha, hm, floor_rat_three]
  | some t0 =>
    refine ⟨s.pool.nextId, ?_, ?_, ?_⟩
    · simp only [mget_mset_self, Option.some_bind]
      rfl
    · rw [key (s.pool.clear t0) rfl (fun e he => (mem_removeId he).1)]
      rfl
    · intro hm ha
      rw [key (s.pool.clear t0) rfl (fun e he => (mem_removeId he).1)]
      simp [ha, hm, floor_rat_three]

/-- Witness for the amended C4 theorem: a MERCENARY with supplied duration
200 gets an armed duration of 600. -/
theorem c4_mercenary_duration_witness :
    (findId (startEliminationRiskTimer
        (joinGame initState "k" "g" "p" "nm" "survivor" "MERCENARY" 0).state
        "g" "p" (some 200)).state.pool.armed 0).map (·.duration) = some 600 := by
  obtain ⟨tid, h1, _, h3⟩ := c4_mercenary_duration
    (joinGame initState "k" "g" "p" "nm" "survivor" "MERCENARY" 0).state
    "g" "p" (some 200)
    ⟨"g", [("p", ⟨"p", "nm", "survivor", "MERCENARY", "k", "alive", 0, none, none⟩)],
      "waiting", ⟨600000, 100000, 5000, 3, 3000⟩, none, [], [], none, none, none, none, 0⟩
    ⟨"p", "nm", "survivor", "MERCENARY", "k", "alive", 0, none, none⟩ rfl rfl
    (by intro e he
        rw [show (joinGame initState "k" "g" "p" "nm" "survivor" "MERCENARY"
          0).state.pool.armed = ([] : List TimerEntry) from rfl] at he
        exact absurd he (List.not_mem_nil e))
  have ht : (0 : Nat) = tid := Option.some.inj h1
  subst ht
  refine (h3 rfl rfl).trans ?_
  show some ((3 : Int) * ((200 : Nat) : Int)) = some 600
  norm_num

theorem mem_removeId_of_ne {l : List TimerEntry} {tid : Nat} {e : TimerEntry}
    (he : e ∈ l) (hne : e.id ≠ tid) : e ∈ removeId l tid := by
  induction l with
  | nil => simp at he
  | cons hd t ih =>
    rcases List.mem_cons.mp he with h1 | h2
    · subst h1
      simp only [removeId, if_neg hne]
      exact List.mem_cons_self _ _
    · simp only [removeId]
      split
      · exact ih h2
      · exact List.mem_cons_of_mem _ (ih h2)

theorem sep_inj : ∀ (a c : List Char) (b d : List Char), '_' ∉ a → '_' ∉ c →
    a ++ '_' :: b = c ++ '_' :: d → a = c ∧ b = d := by
  intro a
  induction a with
  | nil =>
    intro c b d _ hc h
    cases c with
    | nil => simpa using h
    | cons y ys =>
      simp only [List.nil_append, List.cons_append, List.cons.injEq] at h
      exact absurd (h.1 ▸ List.mem_cons_self y ys) hc
  | cons x xs ih =>
    intro c b d ha hc h
    cases c with
    | nil =>
      simp only [List.nil_append, List.cons_append, List.cons.injEq] at h
      exact absurd (h.1 ▸ List.mem_cons_self x xs) ha
    | cons y ys =>
      simp only [List.cons_append, List.cons.injEq] at h
      have hxs := ih ys b d (fun hm => ha (List.mem_cons_of_mem _ hm))
        (fun hm => hc (List.mem_cons_of_mem _ hm)) h.2
      exact ⟨by rw [h.1, hxs.1], hxs.2⟩

theorem string_data_eq {a b : String} (h : a.data = b.data) : a = b := by
  cases a
  cases b
  simp only at h
  rw [h]

theorem string_data_append (a b : String) : (a ++ b).data = a.data ++ b.data := by
  cases a
  cases b
  rfl

theorem chaseKey_data (hid svid : String) :
    (chaseKey hid svid).data = hid.data ++ '_' :: svid.data := by
  unfold chaseKey
  rw [string_data_append, string_data_append]
  simp

/-- Claim C7, counterexample: the chase key is string concatenation with
an underscore, so the distinct ordered pairs ("a_a","a") and ("a","a_a")
share the key "a_a_a"; starting a chase for the second pair cancels the
live timer of the first pair. -/
theorem c7_counterexample :
    chaseKey "a_a" "a" = chaseKey "a" "a_a" ∧
    ("a_a", "a") ≠ (("a", "a_a") : String × String) ∧
    findId (startChaseCountdown (startChaseCountdown
        (getOrCreateGame initState "g" noSettings 0)
        "g" "a_a" "a" false).state "g" "a" "a_a" false).state.pool.armed 0 = none := by
  refine ⟨rfl, by decide, rfl⟩

/-- Claim C7 (amended): chase timers are keyed by the concatenation
hunterId + "_" + survivorId; distinct ordered pairs produce distinct keys
provided the hunter ids contain no underscore (so (A,B) and (B,A) with
A ≠ B underscore-free collide never), and re-arming with the same pair
cancels exactly the prior timer for that key before arming the new one. -/
theorem c7_chase_keys :
    (∀ h1 s1 h2 s2 : String, '_' ∉ h1.data → '_' ∉ h2.data →
      chaseKey h1 s1 = chaseKey h2 s2 → h1 = h2 ∧ s1 = s2) ∧
    (∀ (s : ServerState) (gid hid svid : String) (ghost : Bool) (t : Nat),
      (mget s.games gid).bind (fun g => mget g.chaseTimers (chaseKey hid svid)) = some t →
      (∀ e ∈ s.pool.armed, e.id < s.pool.nextId) →
      t < s.pool.nextId →
      (startChaseCountdown s gid hid svid ghost).ret = true ∧
      (mget (startChaseCountdown s gid hid svid ghost).state.games gid).bind
        (fun g => mget g.chaseTimers (chaseKey hid svid)) = some s.pool.nextId ∧
      (∀ e ∈ (startChaseCountdown s gid hid svid ghost).state.pool.armed, e.id ≠ t) ∧
      (∀ e ∈ s.pool.armed, e.id ≠ t →
        e ∈ (startChaseCountdown s gid hid svid ghost).state.pool.armed)) := by
  constructor
  · intro h1 s1 h2 s2 hh1 hh2 heq
    have hd := congrArg String.data heq
    rw [chaseKey_data, chaseKey_data] at hd
    have := sep_inj h1.data h2.data s1.data s2.data hh1 hh2 hd
    exact ⟨string_data_eq this.1, string_data_eq this.2⟩
  · intro s gid hid svid ghost t hct hwf ht
    cases hg : mget s.games gid with
    | none => simp [hg] at hct
    | some game =>
      simp only [hg, Option.some_bind] at hct
      unfold startChaseCountdown
      simp only [hg, hct]
      refine ⟨by trivial, ?_, ?_, ?_⟩
      · simp only [mget_mset_self, Option.some_bind]
        rfl
      · intro e he
        simp only [TimerPool.arm, TimerPool.clear] at he
        rcases List.mem_append.mp he with h1 | h1
        · exact (mem_removeId h1).2
        · simp at h1
          subst h1
          show s.pool.nextId ≠ t
          omega
      · intro e he hne
        simp only [TimerPool.arm, TimerPool.clear]
        exact List.mem_append.mpr (Or.inl (mem_removeId_of_ne he hne))

/-- Witness for the amended C7 theorem: key injectivity on underscore-free
hunters, and a same-pair re-arm succeeding on a live timer. -/
theorem c7_chase_keys_witness :
    ("x" = ("x" : String) ∧ "y" = ("y" : String)) ∧
    (startChaseCountdown (startChaseCountdown
        (getOrCreateGame initState "g" noSettings 0)
        "g" "h" "sv" false).state "g" "h" "sv" false).ret = true := by
  constructor
  · exact c7_chase_keys.1 "x" "y" "x" "y" (by decide) (by decide) rfl
  · exact (c7_chase_keys.2 (startChaseCountdown
      (getOrCreateGame initState "g" noSettings 0)
      "g" "h" "sv" false).state "g" "h" "sv" false 0 rfl
      (by decide) (by decide)).1

theorem evs_endGame (s : ServerState) (g0 r : String) (now : Nat)
    (h : (mget s.games g0).isSome) : (endGame s g0 r now).evs = [.gameEnded g0 r] := by
  unfold endGame
  cases hg : mget s.games g0 with
  | none => simp [hg] at h
  | some game => rfl

/-- Claim C2 (confirmed): `eliminatePlayer` on an existing game and player
broadcasts game_ended with reason all_survivors_eliminated exactly when,
with the player's status set to eliminated, the count of players with
role survivor and status not eliminated is zero and the game's status at
that moment is 'playing'. -/
theorem c2_win_condition (s : ServerState) (gid pid reason : String) (now : Nat)
    (game : Game) (player : Player)
    (hg : mget s.games gid = some game) (hp : mget game.players pid = some player) :
    Ev.gameEnded gid "all_survivors_eliminated"
        ∈ (eliminatePlayer s gid pid reason now).evs ↔
      (countAliveSurvivors (mset game.players pid { player with
          status := "eliminated"
          eliminatedAt := some now
          eliminationReason := some reason }) = 0 ∧ game.status = "playing") := by
  unfold eliminatePlayer
  simp only [hg, hp]
  have key : ∀ (p0 : TimerPool) (rt1 : List (String × Nat)),
      (Ev.gameEnded gid "all_survivors_eliminated" ∈
        (Ev.playerEliminated gid pid reason ::
          (checkGameEndConditions { s with
            games := mset s.games gid { game with
              eliminationRiskTimers := rt1
              players := mset game.players pid { player with
                status := "eliminated"
                eliminatedAt := some now
                eliminationReason := some reason } }
            pool := p0 } gid now).2) ↔
        (countAliveSurvivors (mset game.players pid { player with
          status := "eliminated"
          eliminatedAt := some now
          eliminationReason := some reason }) = 0 ∧ game.status = "playing")) := by
    intro p0 rt1
    unfold checkGameEndConditions
    simp only [mget_mset_self]
    by_cases hst : game.status = "playing"
    · rw [if_pos hst]
      by_cases hcnt : countAliveSurvivors (mset game.players pid { player with
          status := "eliminated"
          eliminatedAt := some now
          eliminationReason := some reason }) = 0
      · rw [if_pos hcnt]
        rw [evs_endGame _ _ _ _ (by simp [mget_mset_self])]
        simp [hst, hcnt]
      · rw [if_neg hcnt]
        simp [hst, hcnt]
    · rw [if_neg hst]
      simp [hst]
  cases hrt : mget game.eliminationRiskTimers pid <;> exact key _ _

/-- Witness for C2: eliminating the only survivor of a playing game emits
game_ended with reason all_survivors_eliminated. -/
theorem c2_win_condition_witness :
    Ev.gameEnded "g" "all_survivors_eliminated" ∈
      (eliminatePlayer (startGameTimer
        (joinGame initState "k" "g" "p" "nm" "survivor" "NONE" 0).state
        "g" none 1).state "g" "p" "m" 2).evs :=
  (c2_win_condition (startGameTimer
      (joinGame initState "k" "g" "p" "nm" "survivor" "NONE" 0).state
      "g" none 1).state "g" "p" "m" 2
    ⟨"g", [("p", ⟨"p", "nm", "survivor", "NONE", "k", "alive", 0, none, none⟩)], "playing",
      ⟨600000, 100000, 5000, 3, 3000⟩, some 0, [], [], some 1, some 600001, none, none, 0⟩
    ⟨"p", "nm", "survivor", "NONE", "k", "alive", 0, none, none⟩ rfl rfl).mpr ⟨rfl, rfl⟩

/-- Claim C1 (confirmed): `startEliminationRiskTimer(g,p)` immediately
followed by `stopEliminationRiskTimer(g,p)` succeeds, the stop returns
true, and the timer handle armed by the start is absent from the armed
pool in every state reachable afterwards — the armed
`eliminatePlayer(g,p,'elimination_risk_timeout')` callback can never
execute (a cancelled timer never fires). -/
theorem c1_cancelled_timer_never_fires (s : ServerState) (gid pid : String)
    (d : Option Nat) (game : Game) (player : Player)
    (hg : mget s.games gid = some game) (hp : mget game.players pid = some player) :
    (startEliminationRiskTimer s gid pid d).ret = true ∧
    (stopEliminationRiskTimer (startEliminationRiskTimer s gid pid d).state gid pid).ret
      = true ∧
    (∀ s' : ServerState,
      Reach (stopEliminationRiskTimer
        (startEliminationRiskTimer s gid pid d).state gid pid).state s' →
      ∀ e ∈ s'.pool.armed, e.id ≠ s.pool.nextId) := by
  unfold startEliminationRiskTimer
  simp only [hg, hp]
  cases hrt : mget game.eliminationRiskTimers pid <;>
  · refine ⟨by trivial, ?_, ?_⟩
    · unfold stopEliminationRiskTimer
      simp [mget_mset_self]
    · intro s' hreach
      refine (deadId_reach hreach ⟨?_, ?_⟩).2
      · show s.pool.nextId < _
        unfold stopEliminationRiskTimer
        simp only [mget_mset_self]
        exact Nat.lt_succ_self _
      · intro e he
        unfold stopEliminationRiskTimer at he
        simp only [mget_mset_self] at he
        exact (mem_removeId he).2

/-- Witness for C1 at a concrete joined game and player. -/
theorem c1_cancelled_timer_never_fires_witness :
    (stopEliminationRiskTimer (startEliminationRiskTimer
      (joinGame initState "k" "g" "p" "nm" "survivor" "NONE" 0).state
      "g" "p" none).state "g" "p").ret = true :=
  (c1_cancelled_timer_never_fires
    (joinGame initState "k" "g" "p" "nm" "survivor" "NONE" 0).state "g" "p" none
    ⟨"g", [("p", ⟨"p", "nm", "survivor", "NONE", "k", "alive", 0, none, none⟩)], "waiting",
      ⟨600000, 100000, 5000, 3, 3000⟩, none, [], [], none, none, none, none, 0⟩
    ⟨"p", "nm", "survivor", "NONE", "k", "alive", 0, none, none⟩ rfl rfl).2.1

theorem mem_clearAll_ne {p : TimerPool} {tids : List Nat} {e : TimerEntry}
    (he : e ∈ (p.clearAll tids).armed) {t : Nat} (ht : t ∈ tids) : e.id ≠ t := by
  induction tids generalizing p with
  | nil => simp at ht
  | cons t' ts ih =>
    rcases List.mem_cons.mp ht with h1 | h2
    · subst h1
      have hm : e ∈ (p.clear t).armed := mem_clearAll_armed he
      exact (mem_removeId hm).2
    · exact ih (p := p.clear t') he h2

/-- Claim C3, counterexample: `endGame` schedules an uncancellable
deferred cleanup timer; calling `endGame` twice leaves the first call's
cleanup timer — armed before the second call and belonging to the game —
still armed after the second call returns, and firing it executes with an
observable effect (it deletes the game). -/
theorem c3_counterexample :
    findId (endGame (getOrCreateGame initState "g" noSettings 0)
        "g" "r1" 1).state.pool.armed 0 = some ⟨0, .cleanup "g", 300000⟩ ∧
    findId (endGame (endGame (getOrCreateGame initState "g" noSettings 0)
        "g" "r1" 1).state "g" "r2" 2).state.pool.armed 0
      = some ⟨0, .cleanup "g", 300000⟩ ∧
    (mget (endGame (endGame (getOrCreateGame initState "g" noSettings 0)
        "g" "r1" 1).state "g" "r2" 2).state.games "g").isSome = true ∧
    (mget (fireTimer (endGame (endGame (getOrCreateGame initState "g" noSettings 0)
        "g" "r1" 1).state "g" "r2" 2).state 0 400000).1.games "g").isSome = false := by
  exact ⟨rfl, rfl, rfl, rfl⟩

/-- Claim C3 (amended): on a reachable state, `endGame` on an existing
game cancels the game timer, every elimination-risk timer and every chase
timer, leaving the three collections empty, and every handle that was
registered in those collections at call time is unarmed afterwards and
never executes in any reachable future; the deferred cleanup timers armed
by `endGame` itself are outside this guarantee and do fire later. -/
theorem c3_endgame_cancels (s : ServerState) (gid reason : String) (now : Nat)
    (hreach : Reach initState s) (game : Game) (hg : mget s.games gid = some game) :
    (endGame s gid reason now).ret = true ∧
    (∃ game', mget (endGame s gid reason now).state.games gid = some game' ∧
      game'.gameTimer = none ∧ game'.eliminationRiskTimers = [] ∧ game'.chaseTimers = []) ∧
    (∀ tid ∈ registeredIds game,
      (∀ e ∈ (endGame s gid reason now).state.pool.armed, e.id ≠ tid) ∧
      (∀ s', Reach (endGame s gid reason now).state s' →
        ∀ e ∈ s'.pool.armed, e.id ≠ tid)) := by
  have hInv := sInv_of_reach_init hreach
  have hbound : ∀ tid ∈ registeredIds game, tid < s.pool.nextId :=
    fun tid htid => hInv.2.1 (gid, game) (mem_of_mget hg) tid htid
  unfold endGame
  simp only [hg]
  cases hgt : game.gameTimer with
  | none =>
    have hpool : (s.pool.clearAll (game.eliminationRiskTimers.map (·.2))).clearAll
        (game.chaseTimers.map (·.2)) = s.pool.clearAll (registeredIds game) := by
      simp only [registeredIds, hgt, Option.toList_none, List.nil_append]
      unfold TimerPool.clearAll
      rw [List.foldl_append]
    refine ⟨by trivial, ⟨_, mget_mset_self _ _ _, rfl, rfl, rfl⟩, ?_⟩
    intro tid htid
    have hlt : tid < s.pool.nextId := hbound tid htid
    have harm : ∀ e ∈ (((s.pool.clearAll (game.eliminationRiskTimers.map (·.2))).clearAll
        (game.chaseTimers.map (·.2))).arm (.cleanup gid) 300000).2.armed, e.id ≠ tid := by
      intro e he
      simp only [TimerPool.arm] at he
      rcases List.mem_append.mp he with h1 | h1
      · rw [hpool] at h1
        exact mem_clearAll_ne h1 htid
      · simp at h1
        subst h1
        show ((s.pool.clearAll (game.eliminationRiskTimers.map (·.2))).clearAll
          (game.chaseTimers.map (·.2))).nextId ≠ tid
        rw [nextId_clearAll, nextId_clearAll]
        omega
    refine ⟨harm, ?_⟩
    intro s' hr e he
    refine (deadId_reach hr ⟨?_, harm⟩).2 e he
    show tid < _
    simp only [TimerPool.arm]
    rw [nextId_clearAll, nextId_clearAll]
    omega
  | some t0 =>
    have hpool : ((s.pool.clear t0).clearAll (game.eliminationRiskTimers.map (·.2))).clearAll
        (game.chaseTimers.map (·.2)) = s.pool.clearAll (registeredIds game) := by
      simp only [registeredIds, hgt, Option.toList_some]
      unfold TimerPool.clearAll
      rw [List.foldl_append, List.foldl_append]
      rfl
    refine ⟨by trivial, ⟨_, mget_mset_self _ _ _, rfl, rfl, rfl⟩, ?_⟩
    intro tid htid
    have hlt : tid < s.pool.nextId := hbound tid htid
    have harm : ∀ e ∈ ((((s.pool.clear t0).clearAll
        (game.eliminationRiskTimers.map (·.2))).clearAll
        (game.chaseTimers.map (·.2))).arm (.cleanup gid) 300000).2.armed, e.id ≠ tid := by
      intro e he
      simp only [TimerPool.arm] at he
      rcases List.mem_append.mp he with h1 | h1
      · rw [hpool] at h1
        exact mem_clearAll_ne h1 htid
      · simp at h1
        subst h1
        show (((s.pool.clear t0).clearAll (game.eliminationRiskTimers.map (·.2))).clearAll
          (game.chaseTimers.map (·.2))).nextId ≠ tid
        rw [nextId_clearAll, nextId_clearAll]
        show s.pool.nextId ≠ tid
        omega
    refine ⟨harm, ?_⟩
    intro s' hr e he
    refine (deadId_reach hr ⟨?_, harm⟩).2 e he
    show tid < _
    simp only [TimerPool.arm]
    rw [nextId_clearAll, nextId_clearAll]
    show tid < s.pool.nextId + 1
    omega

/-- Witness for the amended C3 theorem: ending a started game leaves all
three timer collections empty. -/
theorem c3_endgame_cancels_witness :
    ∃ game', mget (endGame (step (step initState
        (.join "k" "g" "p" "nm" "survivor" "NONE" 0)) (.startGame "g" none 1))
        "g" "manual" 2).state.games "g" = some game' ∧
      game'.gameTimer = none ∧ game'.eliminationRiskTimers = [] ∧ game'.chaseTimers = [] :=
  (c3_endgame_cancels (step (step initState
      (.join "k" "g" "p" "nm" "survivor" "NONE" 0)) (.startGame "g" none 1))
    "g" "manual" 2
    (Relation.ReflTransGen.tail
      (Relation.ReflTransGen.single ⟨Act.join "k" "g" "p" "nm" "survivor" "NONE" 0, rfl⟩)
      ⟨Act.startGame "g" none 1, rfl⟩)
    ⟨"g", [("p", ⟨"p", "nm", "survivor", "NONE", "k", "alive", 0, none, none⟩)], "playing",
      ⟨600000, 100000, 5000, 3, 3000⟩, some 0, [], [], some 1, some 600001, none, none, 0⟩
    rfl).2.1

/-- Claim C10 (confirmed): on a reachable state, for every connection
with a live binding `disconnectPlayer` removes the bound player from the
game's players, cancels exactly that player's elimination-risk timer,
emits player_disconnected, and removes the binding, while leaving chase
timers and the game timer armed, every other player, game, binding and
pool entry untouched, the game status unchanged and no end-condition
evaluation performed; with no binding it is a complete no-op. -/
theorem c10_disconnect (s : ServerState) (sock : String)
    (hreach : Reach initState s) :
    (∀ b, mget s.bindings sock = some b →
      ∃ game, mget s.games b.gameId = some game ∧
        (disconnectPlayer s sock).2 = [.playerDisconnected b.gameId b.playerId] ∧
        (∃ game', mget (disconnectPlayer s sock).1.games b.gameId = some game' ∧
          mget game'.players b.playerId = none ∧
          (∀ pid', pid' ≠ b.playerId →
            mget game'.players pid' = mget game.players pid') ∧
          mget game'.eliminationRiskTimers b.playerId = none ∧
          (∀ pid', pid' ≠ b.playerId →
            mget game'.eliminationRiskTimers pid' = mget game.eliminationRiskTimers pid') ∧
          game'.chaseTimers = game.chaseTimers ∧
          game'.gameTimer = game.gameTimer ∧
          game'.status = game.status ∧
          game'.settings = game.settings ∧
          game'.startTime = game.startTime ∧
          game'.endTime = game.endTime ∧
          game'.endedAt = game.endedAt ∧
          game'.endReason = game.endReason) ∧
        (∀ gid', gid' ≠ b.gameId →
          mget (disconnectPlayer s sock).1.games gid' = mget s.games gid') ∧
        mget (disconnectPlayer s sock).1.bindings sock = none ∧
        (∀ sock', sock' ≠ sock →
          mget (disconnectPlayer s sock).1.bindings sock' = mget s.bindings sock') ∧
        (disconnectPlayer s sock).1.pool.nextId = s.pool.nextId ∧
        (∀ e ∈ (disconnectPlayer s sock).1.pool.armed, e ∈ s.pool.armed) ∧
        (∀ e ∈ s.pool.armed,
          e ∈ (disconnectPlayer s sock).1.pool.armed ∨
            mget game.eliminationRiskTimers b.playerId = some e.id) ∧
        (∀ tid, mget game.eliminationRiskTimers b.playerId = some tid →
          ∀ e ∈ (disconnectPlayer s sock).1.pool.armed, e.id ≠ tid)) ∧
    (mget s.bindings sock = none → disconnectPlayer s sock = (s, [])) := by
  have hInv := sInv_of_reach_init hreach
  constructor
  · intro b hb
    have hgame : (mget s.games b.gameId).isSome := hInv.2.2 (sock, b) (mem_of_mget hb)
    cases hg : mget s.games b.gameId with
    | none =>
      rw [hg] at hgame
      simp at hgame
    | some game =>
      refine ⟨game, rfl, ?_⟩
      unfold disconnectPlayer
      simp only [hb, hg]
      cases hrt : mget game.eliminationRiskTimers b.playerId with
      | none =>
        refine ⟨by trivial, ⟨_, mget_mset_self _ _ _, mget_mdel_self _ _,
            fun pid' hne => mget_mdel_ne _ hne, hrt,
            fun pid' _ => rfl, rfl, rfl, rfl, rfl, rfl, rfl, rfl, rfl⟩,
          fun gid' hne => mget_mset_ne _ _ hne,
          mget_mdel_self _ _,
          fun sock' hne => mget_mdel_ne _ hne,
          rfl,
          fun e he => he,
          fun e he => Or.inl he,
          ?_⟩
        intro tid htid
        exact absurd htid (by simp)
      | some t0 =>
        refine ⟨by trivial, ⟨_, mget_mset_self _ _ _, mget_mdel_self _ _,
            fun pid' hne => mget_mdel_ne _ hne, mget_mdel_self _ _,
            fun pid' hne => mget_mdel_ne _ hne, rfl, rfl, rfl, rfl, rfl, rfl, rfl, rfl⟩,
          fun gid' hne => mget_mset_ne _ _ hne,
          mget_mdel_self _ _,
          fun sock' hne => mget_mdel_ne _ hne,
          rfl,
          fun e he => (mem_removeId he).1,
          ?_, ?_⟩
        · intro e he
          by_cases hid : e.id = t0
          · exact Or.inr (by rw [hid])
          · exact Or.inl (mem_removeId_of_ne he hid)
        · intro tid htid e he
          have ht : t0 = tid := Option.some.inj htid
          subst ht
          exact (mem_removeId he).2
  · intro h
    unfold disconnectPlayer
    simp only [h]

/-- Witness for C10: disconnecting a joined connection emits
player_disconnected, and disconnecting an unknown connection is a no-op. -/
theorem c10_disconnect_witness :
    (disconnectPlayer (step initState
      (.join "k" "g" "p" "nm" "survivor" "NONE" 0)) "k").2
        = [.playerDisconnected "g" "p"] ∧
    disconnectPlayer initState "z" = (initState, []) := by
  constructor
  · obtain ⟨game, hgame, hevs, _⟩ :=
      (c10_disconnect (step initState (.join "k" "g" "p" "nm" "survivor" "NONE" 0)) "k"
        (Relation.ReflTransGen.single
          ⟨Act.join "k" "g" "p" "nm" "survivor" "NONE" 0, rfl⟩)).1
        ⟨"k", "p", "nm", "survivor", "NONE", "g", 0⟩ rfl
    exact hevs
  · exact (c10_disconnect initState "z" Relation.ReflTransGen.refl).2 rfl
